import Mathlib

/-!
Verification development for the `stylefunction` module of ol-mapbox-style
(fork `llf-yuanchen/ol-mapbox-style`), a converter from Mapbox style
documents to per-feature OpenLayers style functions.

The JavaScript source (`src/stylefunction.js`) is shallowly embedded here:

* JS numbers are modelled as `ℚ` (all arithmetic in the module is exact on
  the inputs the claims touch; `Math.round` is modelled explicitly).
* Dynamic JS values flowing out of the expression evaluator are modelled by
  the sum type `Val`.
* The module-level mutable caches (`functionCache`, `filterCache`,
  `iconImageCache`) become an explicit state record `EvalState`, threaded by
  the state-passing type `StM`.
* Caches whose keys contain their complete inputs (`measureCache`,
  `patternCache`, `fontMap`) are pure memoisation and are modelled by the
  pure functions they memoise.
* External collaborators (the canvas 2d context, the mapbox style-spec
  expression compiler, `mapbox-to-css-font`, `./util`) are modelled by
  explicit function parameters collected in `Env`, or by small executable
  stand-ins with the same interface (see the doc comments at each).
-/

set_option autoImplicit false

namespace OlMapbox

/-- Association-list lookup, mirroring JS object property access
(`obj[key]`, `undefined` becoming `none`). First match wins. -/
def alookup {κ α : Type} [DecidableEq κ] : List (κ × α) → κ → Option α
  | [], _ => none
  | (k', v) :: rest, k => if k' = k then some v else alookup rest k

/-- Association-list insertion/overwrite, mirroring JS `obj[key] = v`. -/
def ainsert {κ α : Type} [DecidableEq κ] : List (κ × α) → κ → α → List (κ × α)
  | [], k, v => [(k, v)]
  | (k', v') :: rest, k, v =>
    if k' = k then (k, v) :: rest else (k', v') :: ainsert rest k v

/-- A colour as produced by the mapbox style-spec `Color` class: premultiplied
`r g b` channels in `[0, 1]` and an alpha `a` in `[0, 1]`. -/
structure Color where
  r : ℚ
  g : ℚ
  b : ℚ
  a : ℚ
deriving DecidableEq, Repr

/-- An `rgba(...)` CSS colour string as built by `colorWithOpacity`:
the three rounded integer channels and the alpha factor. -/
structure RGBA where
  r : ℤ
  g : ℤ
  b : ℤ
  a : ℚ
deriving DecidableEq, Repr

/-- JS `Math.round`: round half away from zero upwards (`Math.round(0.5) = 1`,
`Math.round(-0.5) = 0`), i.e. `⌊x + 1/2⌋`. -/
def jsRound (x : ℚ) : ℤ := Int.floor (x + 1/2)

/-- Embedding of `colorWithOpacity` (src/stylefunction.js lines 172-183).
A falsy colour is passed through as `none` (the JS function returns its
argument when it is `undefined`); a colour with zero alpha, or an explicit
zero `opacity`, yields `undefined`; otherwise the premultiplied channels are
un-multiplied by the alpha, scaled to 0-255 and rounded, and the resulting
alpha is `a * opacity` with an `undefined` opacity treated as `1`. -/
def colorWithOpacity (color : Option Color) (opacity : Option ℚ) : Option RGBA :=
  match color with
  | none => none
  | some c =>
    if c.a = 0 ∨ opacity = some 0 then none
    else
      some { r := jsRound (c.r * 255 / c.a)
             g := jsRound (c.g * 255 / c.a)
             b := jsRound (c.b * 255 / c.a)
             a := c.a * (opacity.getD 1) }

/-- Dynamic JS values as they flow through `getValue` and the style function:
numbers, strings, parsed colours, numeric arrays (`line-dasharray`,
`text-offset`, `icon-translate`), font name arrays, booleans, `undefined`. -/
inductive Val where
  | num (q : ℚ)
  | str (s : String)
  | col (c : Color)
  | numList (l : List ℚ)
  | strList (l : List String)
  | bool (b : Bool)
  | undef
deriving DecidableEq, Repr

/-- JS falsiness of a `Val` (`undefined`, `''`, `0`, `false`). -/
def jsFalsy : Val → Bool
  | .undef => true
  | .num q => q = 0
  | .str s => s = ""
  | .bool b => !b
  | _ => false

/-- Numeric coercion of a `Val` in positions where the source uses the value
as a number (the well-typed case; type mismatches are prevented upstream by
the style-spec defaults, per the spec's error-handling design). -/
def valToNum : Val → ℚ
  | .num q => q
  | _ => 0

/-- Colour view of a `Val`: the style-spec evaluator hands `colorWithOpacity`
either a parsed `Color` or `undefined`. -/
def valToColorOpt : Val → Option Color
  | .col c => some c
  | _ => none

/-- Numeric-array view of a `Val`. -/
def valToNumList : Val → List ℚ
  | .numList l => l
  | _ => []

/-- Font-array view of a `Val`. -/
def valToStrList : Val → List String
  | .strList l => l
  | _ => []

/-- The minimal feature view `f` built by the style function
(src/stylefunction.js lines 362-365): the feature's properties and the
numeric geometry-type code (1 = point, 2 = line, 3 = polygon). -/
structure F where
  properties : List (String × Val)
  type : ℕ
deriving DecidableEq, Repr

/-- Stand-in for a compiled style-spec expression (the expression language
itself lives in the external `@mapbox/mapbox-gl-style-spec` package, out of
scope per the spec). What the embedding relies on is only its interface: a
compiled expression is a pure function of `(zoom, feature)`. Zoom-stop steps
and feature-property reads are enough to exercise every code path. -/
inductive Expr where
  | zoomStep (dv : Val) (stops : List (ℚ × Val))
  | getProp (name : String) (dv : Val)
deriving DecidableEq, Repr

/-- Deterministic evaluation of the expression stand-in: a `zoomStep` yields
the value of the last stop at or below the zoom, a `getProp` reads a feature
property with a default. -/
def evalExpr (e : Expr) (zoom : ℚ) (fv : F) : Val :=
  match e with
  | .zoomStep dv stops =>
    (stops.foldl (fun acc s => if s.1 ≤ zoom then some s.2 else acc) none).getD dv
  | .getProp name dv => (alookup fv.properties name).getD dv

/-- Stand-in for a compiled feature filter (`createFilter(filter).filter`
from the external style-spec package): a pure predicate of `(zoom, feature)`. -/
inductive FilterExpr where
  | allF
  | propEq (name : String) (v : Val)
  | geomType (t : ℕ)
  | zoomGE (q : ℚ)
deriving DecidableEq, Repr

/-- Deterministic evaluation of the filter stand-in. -/
def evalFilter (fe : FilterExpr) (zoom : ℚ) (fv : F) : Bool :=
  match fe with
  | .allF => true
  | .propEq n v => decide (alookup fv.properties n = some v)
  | .geomType t => decide (fv.type = t)
  | .zoomGE q => decide (q ≤ zoom)

/-- A raw property value as stored in a layer's `layout`/`paint` bag: either a
constant (colour constants arrive pre-parsed, mirroring the `Color.parse`
step of `getValue`) or an expression (legacy zoom/property functions are
already in converted form, mirroring `convertFunction`). -/
inductive RawValue where
  | const (v : Val)
  | exprV (e : Expr)
deriving DecidableEq, Repr

/-- Evaluation of a raw property value at `(zoom, feature)` — what the cached
closure built by `getValue` computes on each call. -/
def evalRaw (r : RawValue) (zoom : ℚ) (fv : F) : Val :=
  match r with
  | .const v => v
  | .exprV e => evalExpr e zoom fv

/-- Which property bag a `getValue` call reads. -/
inductive Bag where
  | layout
  | paint
deriving DecidableEq, Repr

/-- The bag's name as used in the style-spec key `${layoutOrPaint}_${type}`. -/
def Bag.key : Bag → String
  | .layout => "layout"
  | .paint => "paint"

/-- A materialised style layer (after `derefLayers`, which lives in the
external style-spec package): id, type string, source, `source-layer`,
optional zoom bounds, the two property bags, and an optional compiled-form
filter. -/
structure Layer where
  id : String
  type : String
  source : String
  sourceLayer : String
  minzoom : Option ℚ
  maxzoom : Option ℚ
  layout : List (String × RawValue)
  paint : List (String × RawValue)
  filter : Option FilterExpr
deriving DecidableEq, Repr

/-- The bag selected by a `getValue` call (`layer[layoutOrPaint] || emptyObj`). -/
def Layer.bagOf (l : Layer) : Bag → List (String × RawValue)
  | .layout => l.layout
  | .paint => l.paint

/-- A layer together with its document index (`layersBySourceLayer` entries,
src/stylefunction.js lines 335-338). -/
structure LayerData where
  layer : Layer
  index : ℕ
deriving DecidableEq, Repr

/-- A sprite atlas entry: sub-rectangle and pixel ratio. -/
structure SpriteEntry where
  x : ℚ
  y : ℚ
  width : ℚ
  height : ℚ
  pixelRatio : ℚ
deriving DecidableEq, Repr

/-- External collaborators of the style function, modelled as explicit
parameters:

* `dflt` — the style-spec default table `spec[bagAndType][property].default`
  (external `@mapbox/mapbox-gl-style-spec` data);
* `spriteImage`/`spriteData` — whether the sprite image has loaded, and the
  atlas metadata;
* `availableFonts` — the fonts argument of the outer function;
* `showV` — JS string coercion of a dynamic value (`value.toString()`,
  string concatenation);
* `parseNum` — JS numeric coercion of a string;
* `deg2rad` — degree-to-radian conversion from `./util` (that file is not
  under src/; only its monotone-injective interface matters here);
* `mb2css` — the external `mapbox-to-css-font` package: css font string from
  a font name and size;
* `cw` — canvas text metrics: the measured advance width of one character in
  a given css font (`ctx.measureText`, with width additive over characters);
* `fallbackZoom` — `Math.round(getZoomForResolution(resolution, resolutions))`
  from `./util` for resolutions not present in the resolutions array
  (not under src/; modelled from the spec: log-interpolated nearest zoom);
* `templateFuel` — recursion bound for the `fromTemplate` do-while loop. -/
structure Env where
  dflt : String → String → Val
  spriteImage : Bool
  spriteData : List (String × SpriteEntry)
  availableFonts : Option (List String)
  showV : Val → String
  parseNum : String → ℚ
  deg2rad : ℚ → ℚ
  mb2css : String → ℚ → String
  cw : String → Char → ℚ
  fallbackZoom : ℚ → ℚ
  templateFuel : ℕ

/-- String coercion of a `Val` in positions where the source expects a string
(template inputs, anchor keywords). -/
def valToStr (env : Env) : Val → String
  | .str s => s
  | v => env.showV v

/-- The icon-image cache key (`icon_cache_key`), structured instead of the
JS string concatenation: the icon variant carries every parameter that
requires re-rasterisation (name, size, translate, translate-anchor, anchor,
offset, anchor offset, optional colour override); the circle variant carries
the full circle parameter tuple. -/
inductive CacheKey where
  | iconK (icon : String) (iconSize : Val) (iconTranslate : Val)
      (iconTranslateAnchor : Val) (iconAnchor : String) (iconOffset : Val)
      (anchorOffset : ℚ × ℚ) (iconColor : Option Val)
  | circleK (radius strokeColor color opacity strokeWidth strokeOpacity : Val)
deriving DecidableEq, Repr

/-- A composited point icon (`new Icon(...)`, src/stylefunction.js lines
578-584): the pixel data of the recoloured atlas extract is summarised by
the icon name and colour override that determine it. -/
structure IconData where
  name : String
  anchorOrigin : String
  anchor : ℚ × ℚ
  imgSize : ℚ × ℚ
  scale : ℚ
  colorOverride : Option (Option RGBA)
deriving DecidableEq, Repr

/-- A circle stroke sub-object (`new Stroke({width, color})`). -/
structure CircleStroke where
  width : ℚ
  color : Option RGBA
deriving DecidableEq, Repr

/-- A circle primitive (`new Circle(...)`, src/stylefunction.js lines
624-633). -/
structure CircleData where
  radius : ℚ
  stroke : Option CircleStroke
  fill : Option RGBA
deriving DecidableEq, Repr

/-- An entry of `iconImageCache`: a composited icon or a circle. -/
inductive ImageVal where
  | iconI (d : IconData)
  | circleI (d : CircleData)
deriving DecidableEq, Repr

/-- The module-level mutable caches threaded through evaluation:
`functionCache` (layer id → property → compiled value), `filterCache`
(layer id → compiled filter) and the per-construction `iconImageCache`. -/
structure EvalState where
  functionCache : List (String × List (String × RawValue))
  filterCache : List (String × FilterExpr)
  iconImageCache : List (CacheKey × ImageVal)
deriving DecidableEq, Repr

/-- The construction-fresh cache state (the constructor deletes the
`functionCache`/`filterCache` entries of every layer id it sees,
src/stylefunction.js lines 342-343). -/
def emptyState : EvalState := { functionCache := [], filterCache := [], iconImageCache := [] }

/-- State-passing computations over the shared caches. -/
def StM (α : Type) : Type := EvalState → α × EvalState

/-- Return for `StM`. -/
def spure {α : Type} (a : α) : StM α := fun st => (a, st)

/-- Sequencing for `StM`. -/
def sbind {α β : Type} (m : StM α) (k : α → StM β) : StM β := fun st =>
  let p := m st
  k p.1 p.2

/-- The raw value `getValue` resolves (and caches) for a property: the bag
entry (`(layer[layoutOrPaint] || emptyObj)[property]`), or the style-spec
default `spec[layoutOrPaint_type][property].default`. -/
def resolveRaw (env : Env) (layer : Layer) (bag : Bag) (property : String) : RawValue :=
  match alookup (layer.bagOf bag) property with
  | some v => v
  | none => .const (env.dflt (bag.key ++ "_" ++ layer.type) property)

/-- Embedding of `getValue` (src/stylefunction.js lines 76-107). On a cache
miss for `(layer.id, property)` the raw value is read from the requested bag,
falling back to the style-spec default, compiled (modelled by storing the
`RawValue` itself) and cached; the cached compiled value is then evaluated at
`(zoom, feature)`. The shared mutable `zoomObj` of the source is modelled by
passing `zoom` directly. -/
def getValueS (env : Env) (layer : Layer) (bag : Bag) (property : String)
    (zoom : ℚ) (fv : F) : StM Val := fun st =>
  let functions := (alookup st.functionCache layer.id).getD []
  match alookup functions property with
  | some r => (evalRaw r zoom fv, st)
  | none =>
    let r := resolveRaw env layer bag property
    (evalRaw r zoom fv,
     { st with functionCache :=
         ainsert st.functionCache layer.id (ainsert functions property r) })

/-- Embedding of `evaluateFilter` (src/stylefunction.js lines 163-169):
compile (store) the layer's filter once per layer id, then evaluate the
cached predicate at `(zoom, feature)`. -/
def evaluateFilterS (layer : Layer) (fe : FilterExpr) (zoom : ℚ) (fv : F) : StM Bool := fun st =>
  match alookup st.filterCache layer.id with
  | some cached => (evalFilter cached zoom fv, st)
  | none =>
    (evalFilter fe zoom fv, { st with filterCache := ainsert st.filterCache layer.id fe })

/-- Embedding of `covertIconAnchor`'s result object
(src/stylefunction.js lines 131-134). -/
structure AnchorResult where
  anchorOffset : ℚ × ℚ
  iconAnchor : String
deriving DecidableEq, Repr

/-- Embedding of `covertIconAnchor` (src/stylefunction.js lines 109-135):
sequential reassignments of the `anchorOffset`/`iconAnchor` pair driven by
the anchor keyword; any keyword not handled keeps the `center` default
`(0.5, 0.5)`. -/
def covertIconAnchor (iconAnchor0 : String) : AnchorResult :=
  let anchorOffset : ℚ × ℚ := (1/2, 1/2)
  let iconAnchor := iconAnchor0
  let anchorOffset :=
    if iconAnchor = "top-left" ∨ iconAnchor = "top-right" ∨
       iconAnchor = "bottom-left" ∨ iconAnchor = "bottom-right"
    then ((0 : ℚ), (0 : ℚ)) else anchorOffset
  let p : AnchorResult := ⟨anchorOffset, iconAnchor⟩
  let p := if p.iconAnchor = "left" then ⟨(0, 1/2), "top-left"⟩ else p
  let p := if p.iconAnchor = "right" then ⟨(1, 1/2), "top-left"⟩ else p
  let p := if p.iconAnchor = "bottom" then ⟨(1/2, 1), "top-left"⟩ else p
  let p := if p.iconAnchor = "top" then ⟨(1/2, 0), "top-left"⟩ else p
  p

/-- Embedding of `chooseFont` (src/stylefunction.js lines 139-159) without
its `fontMap` memoisation (the cache key is the full `fonts` input, so the
cache is pure memoisation): with an available-fonts list, the first listed
font that is available, else the last font; without one, the first font. -/
def chooseFont (fonts : List String) (availableFonts : Option (List String)) : String :=
  match availableFonts with
  | some av =>
    match fonts.find? (fun f => av.contains f) with
    | some f => f
    | none => fonts.getLastD ""
  | none => fonts.headD ""

/-- Canvas text measurement, additive over characters: the width of a string
is the sum of its characters' advance widths under the given width table
(the model of `ctx.measureText(text).width` for a fixed font). -/
def measureW (cw : Char → ℚ) (s : List Char) : ℚ := (s.map cw).sum

/-- JS `text.split(sep)` on a character list: `""` splits to `[""]`,
separators at the ends produce empty fragments. -/
def splitOnChar (sep : Char) : List Char → List (List Char)
  | [] => [[]]
  | c :: rest =>
    match splitOnChar sep rest with
    | [] => [[]]
    | w :: ws => if c = sep then [] :: w :: ws else (c :: w) :: ws

/-- The `forEach` accumulation loop of `wrapChineseText`
(src/stylefunction.js lines 268-277): greedily pack characters into chunks
whose measured width stays within `maxWidth`, starting a new chunk (and
flushing the old one) whenever adding the next character exceeds it. -/
def chineseLoop (cw : Char → ℚ) (maxWidth : ℚ) :
    List Char → List Char → List (List Char) → List (List Char)
  | [], temp, res => res ++ [temp]
  | c :: rest, temp, res =>
    let tempText := temp ++ [c]
    if measureW cw tempText > maxWidth then chineseLoop cw maxWidth rest [c] (res ++ [temp])
    else chineseLoop cw maxWidth rest tempText res

/-- Embedding of `wrapChineseText` (src/stylefunction.js lines 262-281):
texts within the budget stay whole; wider texts are split per character by
the greedy loop. -/
def wrapChineseText (cw : Char → ℚ) (text : List Char) (maxWidth : ℚ) : List (List Char) :=
  if measureW cw text > maxWidth then chineseLoop cw maxWidth text [] []
  else [text]

/-- Is a character a CJK ideograph, per the source's `/[一-龥]+/`
test (src/stylefunction.js line 291). -/
def isCJK (c : Char) : Bool := decide (0x4E00 ≤ c.toNat ∧ c.toNat ≤ 0x9FA5)

/-- Does the text contain a CJK ideograph. -/
def hasCJK (s : List Char) : Bool := s.any isCJK

/-- The word-packing loop of `wrapText` (src/stylefunction.js lines
296-311): greedily extend the current line while the measured width of
`line + word` (note: measured without the joining space, as in the source)
stays within the budget; otherwise flush the non-empty line and start a new
line with the word. -/
def wrapLoop (cw : Char → ℚ) (width : ℚ) :
    List (List Char) → List Char → List (List Char) → List (List Char)
  | [], line, lines => if line = [] then lines else lines ++ [line]
  | w :: ws, line, lines =>
    if measureW cw (line ++ w) ≤ width then
      wrapLoop cw width ws (line ++ (if line = [] then [] else [' ']) ++ w) lines
    else
      wrapLoop cw width ws w (if line = [] then lines else lines ++ [line])

/-- Embedding of `wrapText` (src/stylefunction.js lines 283-315) without its
`measureCache` memoisation (the cache key `(em, font, text)` contains the
full input, so the cache is pure memoisation). The pixel budget is the
measured width of `'M'` times `em`; CJK texts are pre-split by
`wrapChineseText`, others on spaces; the result is the produced line list
(joined with newlines by the source). -/
def wrapText (cw : Char → ℚ) (text : List Char) (em : ℚ) : List (List Char) :=
  let oneEm := cw 'M'
  let width := oneEm * em
  let words := if hasCJK text then wrapChineseText cw text width else splitOnChar ' ' text
  wrapLoop cw width words [] []

/-- The joined form of `wrapText`'s result (`lines.join('\n')`). -/
def wrapTextJoined (cw : Char → ℚ) (text : List Char) (em : ℚ) : String :=
  String.intercalate "\n" ((wrapText cw text em).map (fun l => String.mk l))

/-- Split a character list at the last occurrence of `c`: the parts before
and after that occurrence, or `none` when `c` does not occur. -/
def splitLast (c : Char) : List Char → Option (List Char × List Char)
  | [] => none
  | a :: rest =>
    match splitLast c rest with
    | some (l, r) => some (a :: l, r)
    | none => if a = c then some ([], rest) else none

/-- One rewriting pass plus recursion for `fromTemplate`
(src/stylefunction.js lines 185-197). The greedy regex
`^([^]*)\x7b(.*)\x7d([^]*)$` matches the last `\x7b` that still has a
`\x7d` after it — equivalently the last `\x7b` before the last `\x7d` — so
each pass substitutes that innermost-from-the-right placeholder with the
named property (falsy values becoming `''`) and loops while a match remains.
The do-while loop is bounded by explicit fuel, since a property value
containing braces can make the source loop diverge. -/
def fromTemplateAux (env : Env) (properties : List (String × Val)) :
    ℕ → List Char → List Char
  | 0, s => s
  | fuel + 1, s =>
    match splitLast '\x7d' s with
    | none => s
    | some (bodyA, partsThree) =>
      match splitLast '\x7b' bodyA with
      | none => s
      | some (partsOne, partsTwo) =>
        let value :=
          match alookup properties (String.mk partsTwo) with
          | none => ""
          | some v => if jsFalsy v then "" else env.showV v
        fromTemplateAux env properties fuel (partsOne ++ value.data ++ partsThree)

/-- Embedding of `fromTemplate`: substitute `\x7bname\x7d` placeholders from
the feature properties until none remain. -/
def fromTemplate (env : Env) (properties : List (String × Val)) (text : String) : String :=
  String.mk (fromTemplateAux env properties env.templateFuel text.data)

/-- The layer skip test of the style function (src/stylefunction.js lines
372-377): skip the layer when its raw layout `visibility` is the string
`'none'`, or the resolved zoom is below a present `minzoom`, or at or above
a present `maxzoom`. -/
def layerSkipped (layer : Layer) (zoom : ℚ) : Bool :=
  decide (alookup layer.layout "visibility" = some (.const (.str "none"))) ||
  (match layer.minzoom with
   | some m => decide (zoom < m)
   | none => false) ||
  (match layer.maxzoom with
   | some mz => decide (zoom ≥ mz)
   | none => false)

/-- Does list `s` start with the list `pre`. -/
def listStartsWith {α : Type} [DecidableEq α] : List α → List α → Bool
  | _, [] => true
  | [], _ :: _ => false
  | a :: as, b :: bs => decide (a = b) && listStartsWith as bs

/-- Is `needle` a contiguous sublist of `s` (JS `s.indexOf(needle) !== -1`). -/
def containsSub {α : Type} [DecidableEq α] (s needle : List α) : Bool :=
  match s with
  | [] => needle.isEmpty
  | _ :: rest => listStartsWith s needle || containsSub rest needle

/-- The colour slot of a fill primitive: either a repeating sprite pattern
(the `patternCache` is keyed by `(icon, opacity)` which fully determine the
drawn pattern, so the composited bitmap is summarised by that pair) or a
plain resolved colour. -/
inductive FillPaintV where
  | pattern (icon : String) (opacity : ℚ)
  | colorV (c : RGBA)
deriving DecidableEq, Repr

/-- A stroke primitive's visual properties (the fields set on `new Stroke()`
by the fill-outline and line branches; fields never set remain `none`). -/
structure StrokeData where
  color : RGBA
  width : ℚ
  lineCap : Option Val
  lineJoin : Option Val
  miterLimit : Option Val
  lineDash : Option (List ℚ)
deriving DecidableEq, Repr

/-- An image primitive: the cached icon or circle together with the
rotation/opacity applied at call time after cache retrieval (icons only;
the circle branch sets neither, leaving the defaults). -/
structure PrimImage where
  val : ImageVal
  rotation : ℚ
  opacity : ℚ
deriving DecidableEq, Repr

/-- A text primitive's visual properties as set by the text branch
(src/stylefunction.js lines 661-725). `textAlign` is set only for point
placement, `maxAngle` only for curved placement. -/
structure TextData where
  textStr : String
  font : String
  rotation : ℚ
  placement : String
  textAlign : Option String
  maxAngle : Option ℚ
  textBaseline : String
  offsetX : ℚ
  offsetY : ℚ
  fillColor : RGBA
  halo : Option (RGBA × ℚ)
deriving DecidableEq, Repr

/-- One drawable style object as the renderer sees it after a call. The
source reuses objects from a shared `styles` array slot-by-slot, re-setting
every visual property it emits and truncating the array; the embedding
builds the equivalent fresh records (the spec's §9 notes slot reuse is an
allocation optimisation, not observable in the visual properties). -/
structure PrimStyle where
  fill : Option FillPaintV
  stroke : Option StrokeData
  image : Option PrimImage
  text : Option TextData
  geometry : Option (ℚ × ℚ)
  zIndex : ℤ
deriving DecidableEq, Repr

/-- The rendered feature handed to the style function: properties, geometry
type string, and for line geometries the extent and optional flat midpoint
used by the icon branch (`feature.styleIds`, a pure bookkeeping map with no
effect on the produced styles, is not modelled). -/
structure Feature where
  properties : List (String × Val)
  geomType : String
  extent : ℚ × ℚ × ℚ × ℚ
  flatMidpoint : Option (ℚ × ℚ)
deriving DecidableEq, Repr

/-- Embedding of the fill branch (src/stylefunction.js lines 384-467):
polygon features on `fill` layers. `fill-pattern` takes precedence over
`fill-color` (and suppresses any outline); a plain colour feeds
`colorWithOpacity` and, when it survives, one fill primitive; a synthetic
width-1 outline stroke uses `fill-outline-color` when present in the paint
bag, else the fill colour when `fill-antialias` is present. Note the source
passes the raw `properties` object (not the feature view `f`) to the
`fill-outline-color` lookup (line 447), so property expressions there see no
properties; the embedding passes an empty feature view. -/
def fillStep (env : Env) (layer : Layer) (index : ℕ) (zoom : ℚ) (fv : F)
    (properties : List (String × Val)) : StM (List PrimStyle) :=
  if fv.type = 3 ∧ layer.type = "fill" then
    sbind (getValueS env layer .paint "fill-opacity" zoom fv) fun opacityV =>
    let opacity := valToNum opacityV
    if (alookup layer.paint "fill-pattern").isSome then
      sbind (getValueS env layer .paint "fill-pattern" zoom fv) fun iconImageV =>
      if jsFalsy iconImageV then spure []
      else
        let icon := match iconImageV with
          | .str s => fromTemplate env properties s
          | v => env.showV v
        if env.spriteImage ∧ (alookup env.spriteData icon).isSome then
          spure [{ fill := some (.pattern icon opacity), stroke := none, image := none,
                   text := none, geometry := none, zIndex := (index : ℤ) }]
        else spure []
    else if (alookup layer.paint "fill-color").isSome then
      sbind (getValueS env layer .paint "fill-color" zoom fv) fun fcV =>
      let color := colorWithOpacity (valToColorOpt fcV) (some opacity)
      let fillPrims : List PrimStyle :=
        match color with
        | some c => [{ fill := some (.colorV c), stroke := none, image := none,
                       text := none, geometry := none, zIndex := (index : ℤ) }]
        | none => []
      sbind (if (alookup layer.paint "fill-outline-color").isSome then
               sbind (getValueS env layer .paint "fill-outline-color" zoom
                        { properties := [], type := 0 }) fun ocV =>
               spure (colorWithOpacity (valToColorOpt ocV) (some opacity))
             else if (alookup layer.paint "fill-antialias").isSome then spure color
             else spure none) fun strokeColor =>
      match strokeColor with
      | some sc =>
        spure (fillPrims ++
          [{ fill := none,
             stroke := some { color := sc, width := 1, lineCap := none, lineJoin := none,
                              miterLimit := none, lineDash := none },
             image := none, text := none, geometry := none, zIndex := (index : ℤ) }])
      | none => spure fillPrims
    else spure []
  else spure []

/-- Embedding of the line branch (src/stylefunction.js lines 469-497):
non-point features on `line` layers. The colour is `undefined` whenever
`line-pattern` is present in the paint bag; a stroke is emitted only when
the colour survives `colorWithOpacity` and the resolved width is positive;
a present `line-dasharray` is scaled entry-wise by the resolved width. -/
def lineStep (env : Env) (layer : Layer) (index : ℕ) (zoom : ℚ) (fv : F) :
    StM (List PrimStyle) :=
  if fv.type ≠ 1 ∧ layer.type = "line" then
    sbind (if ¬ (alookup layer.paint "line-pattern").isSome ∧
              (alookup layer.paint "line-color").isSome then
             sbind (getValueS env layer .paint "line-color" zoom fv) fun lcV =>
             sbind (getValueS env layer .paint "line-opacity" zoom fv) fun loV =>
             spure (colorWithOpacity (valToColorOpt lcV) (some (valToNum loV)))
           else spure none) fun color =>
    sbind (getValueS env layer .paint "line-width" zoom fv) fun widthV =>
    let width := valToNum widthV
    match color with
    | some c =>
      if width > 0 then
        sbind (getValueS env layer .layout "line-cap" zoom fv) fun capV =>
        sbind (getValueS env layer .layout "line-join" zoom fv) fun joinV =>
        sbind (getValueS env layer .layout "line-miter-limit" zoom fv) fun miterV =>
        sbind (if (alookup layer.paint "line-dasharray").isSome then
                 sbind (getValueS env layer .paint "line-dasharray" zoom fv) fun dashV =>
                 spure (some ((valToNumList dashV).map (fun x => x * width)))
               else spure none) fun dash =>
        spure [{ fill := none,
                 stroke := some { color := c, width := width, lineCap := some capV,
                                  lineJoin := some joinV, miterLimit := some miterV,
                                  lineDash := dash },
                 image := none, text := none, geometry := none, zIndex := (index : ℤ) }]
      else spure []
    | none => spure []
  else spure []

/-- The 150-unit screen-extent test of the icon branch (src/stylefunction.js
lines 514-518): the source compares `Math.sqrt(max(dx², dy²)) > 150` with
`dx`, `dy` the extent spans over the resolution; since both sides are
non-negative and squaring is monotone there, this is equivalent to comparing
the maximal square against `150²`, which keeps the test rational. -/
def overIconSizeThreshold (extent : ℚ × ℚ × ℚ × ℚ) (resolution : ℚ) : Bool :=
  decide (max (((extent.2.2.1 - extent.1) / resolution) ^ 2)
              (((extent.2.2.2 - extent.2.1) / resolution) ^ 2) > 150 ^ 2)

/-- The composited icon built on an `iconImageCache` miss
(src/stylefunction.js lines 549-585), as a function of the cache-key
parameters: the atlas extract is summarised by the icon name and the
colour override (`colorWithOpacity(iconColor, 1)`), the anchor folds the
pixel offset, the converted anchor offset and the translate scaled by the
sprite's pixel dimensions, and the scale is `iconSize / pixelRatio`.
`icon-translate-anchor` is part of the cache key but unused by the build,
as in the source. -/
def buildIconFromKey (env : Env) (icon : String) (iconSize : Val) (iconTranslate : Val)
    (iconAnchor : String) (iconOffset : Val) (anchorOffset : ℚ × ℚ)
    (iconColor : Option Val) : IconData :=
  let sd := (alookup env.spriteData icon).getD ⟨0, 0, 0, 0, 1⟩
  let translate := valToNumList iconTranslate
  let offs := valToNumList iconOffset
  let translateOffset : ℚ × ℚ := (translate.getD 0 0 / sd.width, translate.getD 1 0 / sd.height)
  { name := icon
    anchorOrigin := iconAnchor
    anchor := (offs.getD 0 0 + anchorOffset.1 + translateOffset.1,
               offs.getD 1 0 + anchorOffset.2 - translateOffset.2)
    imgSize := (sd.width, sd.height)
    scale := valToNum iconSize / sd.pixelRatio
    colorOverride := iconColor.map (fun c => colorWithOpacity (valToColorOpt c) (some 1)) }

/-- The `iconImageCache` access of the icon branch (src/stylefunction.js
lines 544-585): look up the full-tuple key and, on a miss, build the
composited icon and assign it back into the cache (line 578). -/
def iconCacheStep (env : Env) (icon : String) (iconSizeV iconTranslateV iconTAV : Val)
    (ar : AnchorResult) (iconOffsetV : Val) (iconColor : Option Val) : StM ImageVal :=
  fun st =>
  let key : CacheKey :=
    .iconK icon iconSizeV iconTranslateV iconTAV ar.iconAnchor iconOffsetV
      ar.anchorOffset iconColor
  match alookup st.iconImageCache key with
  | some img => (img, st)
  | none =>
    let img : ImageVal :=
      .iconI (buildIconFromKey env icon iconSizeV iconTranslateV ar.iconAnchor
        iconOffsetV ar.anchorOffset iconColor)
    (img, { st with iconImageCache := ainsert st.iconImageCache key img })

/-- Result of the icon branch: its primitives and the `hasImage`/`skipLabel`
flags consumed by the text branch. -/
structure IconOut where
  prims : List PrimStyle
  hasImage : Bool
  skipLabel : Bool
deriving DecidableEq, Repr

/-- Embedding of the icon branch (src/stylefunction.js lines 499-603):
point/line features with `icon-image` in the layout bag. Line geometries
render only at the flat midpoint and only over the 150-unit extent
threshold, otherwise the label is skipped; the composited icon is cached in
`iconImageCache` under the full re-rasterisation parameter tuple, with
rotation (template-driven `360 - value` for `\x7b...\x7d` strings) and
opacity applied after retrieval. -/
def iconStep (env : Env) (layer : Layer) (index : ℕ) (zoom : ℚ) (fv : F)
    (feature : Feature) (resolution : ℚ) (properties : List (String × Val)) :
    StM IconOut :=
  if (fv.type = 1 ∨ fv.type = 2) ∧ (alookup layer.layout "icon-image").isSome then
    sbind (getValueS env layer .layout "icon-image" zoom fv) fun iconImageV =>
    if jsFalsy iconImageV then spure ⟨[], false, false⟩
    else
      let icon := match iconImageV with
        | .str s => fromTemplate env properties s
        | v => env.showV v
      if env.spriteImage ∧ (alookup env.spriteData icon).isSome then
        let styleGeom : Option (ℚ × ℚ) :=
          if fv.type = 2 then
            match feature.flatMidpoint with
            | some mp =>
              if overIconSizeThreshold feature.extent resolution then some mp else none
            | none => none
          else none
        if fv.type ≠ 2 ∨ styleGeom.isSome then
          sbind (getValueS env layer .layout "icon-size" zoom fv) fun iconSizeV =>
          sbind (if (alookup layer.paint "icon-color").isSome then
                   sbind (getValueS env layer .paint "icon-color" zoom fv) fun icV =>
                   spure (some icV)
                 else spure none) fun iconColor =>
          sbind (getValueS env layer .paint "icon-translate" zoom fv) fun iconTranslateV =>
          sbind (getValueS env layer .paint "icon-translate-anchor" zoom fv) fun iconTAV =>
          sbind (getValueS env layer .layout "icon-anchor" zoom fv) fun iconAnchorValV =>
          sbind (getValueS env layer .layout "icon-offset" zoom fv) fun iconOffsetV =>
          let ar := covertIconAnchor (valToStr env iconAnchorValV)
          sbind (iconCacheStep env icon iconSizeV iconTranslateV iconTAV ar iconOffsetV
              iconColor) fun iconImg =>
          sbind (getValueS env layer .layout "icon-rotate" zoom fv) fun rotateV =>
          let rotateDeg : ℚ :=
            match rotateV with
            | .str s =>
              if listStartsWith s.data ['\x7b'] then
                360 - env.parseNum (fromTemplate env properties s)
              else env.parseNum s
            | v => valToNum v
          sbind (getValueS env layer .paint "icon-opacity" zoom fv) fun iconOpV =>
          spure ⟨[{ fill := none, stroke := none,
                    image := some { val := iconImg, rotation := env.deg2rad rotateDeg,
                                    opacity := valToNum iconOpV },
                    text := none, geometry := styleGeom, zIndex := (99999 : ℤ) - index }],
                 true, false⟩
        else spure ⟨[], false, true⟩
      else spure ⟨[], false, false⟩
  else spure ⟨[], false, false⟩

/-- Embedding of `new Circle({...})` (src/stylefunction.js lines 624-633):
a strict-zero stroke width omits the stroke sub-object entirely, any other
width attaches a stroke of that width with the resolved stroke colour; the
fill carries the resolved circle colour (possibly `undefined`). -/
def buildCircle (circleRadius circleStrokeWidth : ℚ)
    (circleStrokeColor circleColor : Option Color)
    (circleStrokeOpacity circleOpacity : Option ℚ) : CircleData :=
  { radius := circleRadius
    stroke :=
      if circleStrokeWidth = 0 then none
      else some { width := circleStrokeWidth
                  color := colorWithOpacity circleStrokeColor circleStrokeOpacity }
    fill := colorWithOpacity circleColor circleOpacity }

/-- The `iconImageCache` consultation of the circle branch
(src/stylefunction.js lines 622-634): look the full-tuple key up and fall
back to the freshly built circle. Unlike the icon branch (line 578), the
source never assigns the built circle back into the cache, so the cache is
returned unchanged. -/
def circleCacheLookup (cache : List (CacheKey × ImageVal)) (key : CacheKey)
    (fresh : CircleData) : ImageVal × List (CacheKey × ImageVal) :=
  match alookup cache key with
  | some img => (img, cache)
  | none => (.circleI fresh, cache)

/-- The state-level wrapper of `circleCacheLookup`. -/
def circleCacheStep (key : CacheKey) (fresh : CircleData) : StM ImageVal := fun st =>
  let p := circleCacheLookup st.iconImageCache key fresh
  (p.1, { st with iconImageCache := p.2 })

/-- Result of the circle branch: its primitives and its `hasImage` flag. -/
structure CircleOut where
  prims : List PrimStyle
  hasImage : Bool
deriving DecidableEq, Repr

/-- Embedding of the circle branch (src/stylefunction.js lines 605-641):
point features with `circle-radius` in the paint bag. The six paint
properties are resolved, the cache is consulted under the full tuple key,
and the (found or fresh) circle image is attached with cleared geometry and
the symbol z-index. -/
def circleBranchStep (env : Env) (layer : Layer) (index : ℕ) (zoom : ℚ) (fv : F) :
    StM CircleOut :=
  if fv.type = 1 ∧ (alookup layer.paint "circle-radius").isSome then
    sbind (getValueS env layer .paint "circle-radius" zoom fv) fun rV =>
    sbind (getValueS env layer .paint "circle-stroke-color" zoom fv) fun scV =>
    sbind (getValueS env layer .paint "circle-color" zoom fv) fun ccV =>
    sbind (getValueS env layer .paint "circle-opacity" zoom fv) fun coV =>
    sbind (getValueS env layer .paint "circle-stroke-width" zoom fv) fun swV =>
    sbind (getValueS env layer .paint "circle-stroke-opacity" zoom fv) fun soV =>
    let key : CacheKey := .circleK rV scV ccV coV swV soV
    let fresh := buildCircle (valToNum rV) (valToNum swV) (valToColorOpt scV)
      (valToColorOpt ccV) (some (valToNum soV)) (some (valToNum coV))
    sbind (circleCacheStep key fresh) fun img =>
    spure ⟨[{ fill := none, stroke := none,
              image := some { val := img, rotation := 0, opacity := 1 },
              text := none, geometry := none, zIndex := (99999 : ℤ) - index }], true⟩
  else spure ⟨[], false⟩

/-- Embedding of the text branch (src/stylefunction.js lines 643-726),
producing the text primitive's visual properties when a non-empty resolved
label exists and the icon branch did not mark the label skipped. Placement
is forced to `point` for images and point geometries; alignment/baseline and
the halo-width offsets derive from the anchor keyword; line labels keep the
unwrapped text and get a max angle scaled by the label/wrapped length ratio;
the fill colour falls back to transparent black and the halo stroke is
attached only when its colour survives `colorWithOpacity`. -/
def textStep (env : Env) (layer : Layer) (zoom : ℚ) (fv : F)
    (properties : List (String × Val)) (hasImage skipLabel : Bool) :
    StM (Option TextData) :=
  sbind (if (alookup layer.layout "text-field").isSome then
           sbind (getValueS env layer .layout "text-field" zoom fv) fun tfV =>
           spure (fromTemplate env properties (valToStr env tfV))
         else spure "") fun label0 =>
  if label0 ≠ "" ∧ skipLabel = false then
    sbind (getValueS env layer .layout "text-size" zoom fv) fun tsV =>
    let textSize := valToNum tsV
    sbind (getValueS env layer .layout "text-line-height" zoom fv) fun tlhV =>
    let textLineHeight := valToNum tlhV
    sbind (getValueS env layer .layout "text-font" zoom fv) fun tfontV =>
    let font := env.mb2css (chooseFont (valToStrList tfontV) none) textSize
    let label :=
      match alookup layer.layout "text-transform" with
      | some (.const (.str "uppercase")) => label0.toUpper
      | some (.const (.str "lowercase")) => label0.toLower
      | _ => label0
    sbind (if fv.type = 2 then spure label
           else
             sbind (getValueS env layer .layout "text-max-width" zoom fv) fun mwV =>
             spure (wrapTextJoined (env.cw font) label.data (valToNum mwV)))
      fun wrappedLabel =>
    sbind (getValueS env layer .layout "text-rotate" zoom fv) fun trV =>
    sbind (getValueS env layer .layout "text-anchor" zoom fv) fun taV =>
    let textAnchor := valToStr env taV
    sbind (if hasImage ∨ fv.type = 1 then spure "point"
           else
             sbind (getValueS env layer .layout "symbol-placement" zoom fv) fun spV =>
             spure (valToStr env spV)) fun placement =>
    sbind (getValueS env layer .paint "text-halo-width" zoom fv) fun thwV =>
    let textHaloWidth := valToNum thwV
    sbind (getValueS env layer .layout "text-offset" zoom fv) fun toV =>
    sbind (getValueS env layer .paint "text-translate" zoom fv) fun ttV =>
    let hOffset : ℚ :=
      if containsSub textAnchor.data "left".data then textHaloWidth
      else if containsSub textAnchor.data "right".data then -textHaloWidth else 0
    let textAlignV : String :=
      if containsSub textAnchor.data "left".data then "left"
      else if containsSub textAnchor.data "right".data then "right" else "center"
    sbind (if placement = "point" then spure (some textAlignV, (none : Option ℚ))
           else
             sbind (getValueS env layer .layout "text-max-angle" zoom fv) fun tmaV =>
             spure ((none : Option String),
                    some (env.deg2rad (valToNum tmaV) * (label.length : ℚ) /
                          (wrappedLabel.length : ℚ)))) fun alignAngle =>
    let baseVOff : String × ℚ :=
      if listStartsWith textAnchor.data "bottom".data then
        ("bottom", -textHaloWidth - 1/2 * (textLineHeight - 1) * textSize)
      else if listStartsWith textAnchor.data "top".data then
        ("top", textHaloWidth + 1/2 * (textLineHeight - 1) * textSize)
      else ("middle", 0)
    let textOffset := valToNumList toV
    let textTranslate := valToNumList ttV
    let offsetX := textOffset.getD 0 0 * textSize + hOffset + textTranslate.getD 0 0
    let offsetY := textOffset.getD 1 0 * textSize + baseVOff.2 + textTranslate.getD 1 0
    sbind (getValueS env layer .paint "text-opacity" zoom fv) fun opV =>
    let opacity := valToNum opV
    sbind (getValueS env layer .paint "text-color" zoom fv) fun tcV =>
    let fillColor := (colorWithOpacity (valToColorOpt tcV) (some opacity)).getD ⟨0, 0, 0, 0⟩
    sbind (getValueS env layer .paint "text-halo-color" zoom fv) fun thcV =>
    sbind (match colorWithOpacity (valToColorOpt thcV) (some opacity) with
           | some hc =>
             sbind (getValueS env layer .paint "text-halo-width" zoom fv) fun thw2V =>
             spure (some (hc, valToNum thw2V))
           | none => spure none) fun halo =>
    spure (some { textStr := wrappedLabel, font := font,
                  rotation := env.deg2rad (valToNum trV), placement := placement,
                  textAlign := alignAngle.1, maxAngle := alignAngle.2,
                  textBaseline := baseVOff.1, offsetX := offsetX, offsetY := offsetY,
                  fillColor := fillColor, halo := halo })
  else spure none

/-- Apply `f` to the last element of a list. -/
def modifyLast {α : Type} (f : α → α) : List α → List α
  | [] => []
  | [a] => [f a]
  | a :: b :: rest => a :: modifyLast f (b :: rest)

/-- Embedding of the per-layer body of the style function
(src/stylefunction.js lines 367-727): skip on visibility/zoom range, apply
the (cached) filter, then run the fill, line, icon, circle and text branches
in source order. The text primitive attaches to the just-emitted image style
when one exists (matching the source's `style` variable, which then points
at the most recently allocated slot), else to a fresh style of its own. -/
def evalLayer (env : Env) (ld : LayerData) (zoom : ℚ) (feature : Feature)
    (resolution : ℚ) (fv : F) : StM (List PrimStyle) :=
  let layer := ld.layer
  if layerSkipped layer zoom then spure []
  else
    sbind (match layer.filter with
           | none => spure true
           | some fe => evaluateFilterS layer fe zoom fv) fun keep =>
    if keep then
      sbind (fillStep env layer ld.index zoom fv feature.properties) fun fillPrims =>
      sbind (lineStep env layer ld.index zoom fv) fun linePrims =>
      sbind (iconStep env layer ld.index zoom fv feature resolution feature.properties)
        fun io =>
      sbind (circleBranchStep env layer ld.index zoom fv) fun co =>
      let hasImage := io.hasImage || co.hasImage
      sbind (textStep env layer zoom fv feature.properties hasImage io.skipLabel)
        fun tdOpt =>
      spure
        (let base := fillPrims ++ linePrims ++ io.prims ++ co.prims
         match tdOpt with
         | none => base
         | some td =>
           if hasImage then
             modifyLast (fun p => { p with text := some td, zIndex := (99999 : ℤ) - ld.index }) base
           else
             base ++ [{ fill := none, stroke := none, image := none, text := some td,
                        geometry := none, zIndex := (99999 : ℤ) - ld.index }])
    else spure []

/-- Sequential evaluation of the candidate layers in stored order,
concatenating the produced primitives (the source's shared `styles` array,
truncated to the produced count). -/
def evalLayersFold (env : Env) (lds : List LayerData) (zoom : ℚ) (feature : Feature)
    (resolution : ℚ) (fv : F) : StM (List PrimStyle) :=
  match lds with
  | [] => spure []
  | ld :: rest =>
    sbind (evalLayer env ld zoom feature resolution fv) fun prims =>
    sbind (evalLayersFold env rest zoom feature resolution fv) fun restPrims =>
    spure (prims ++ restPrims)

/-- The geometry-type table `types` (src/stylefunction.js lines 47-54). -/
def typesTable (g : String) : Option ℕ :=
  if g = "Point" ∨ g = "MultiPoint" then some 1
  else if g = "LineString" ∨ g = "MultiLineString" then some 2
  else if g = "Polygon" ∨ g = "MultiPolygon" then some 3
  else none

/-- Zoom resolution (src/stylefunction.js lines 357-360): exact index in the
resolutions array when present, else the rounded log-interpolated zoom from
`./util` (not under src/), abstracted as `env.fallbackZoom`. -/
def resolveZoom (env : Env) (resolutions : List ℚ) (resolution : ℚ) : ℚ :=
  if resolutions.contains resolution then (resolutions.indexOf resolution : ℚ)
  else env.fallbackZoom resolution

/-- The data the constructor builds once per style-function construction:
layers grouped by `source-layer`, the contributing layer ids, and the
resolved source name. -/
structure StyleFnData where
  layersBySourceLayer : List (String × List LayerData)
  mapboxLayers : List String
  mapboxSource : Option String
deriving DecidableEq, Repr

/-- Embedding of the per-feature `styleFunction`
(src/stylefunction.js lines 350-734): group lookup by the feature's `layer`
property, zoom resolution, per-layer evaluation in stored order, and no
result when nothing was produced. -/
def styleFunctionEval (env : Env) (cfg : StyleFnData) (resolutions : List ℚ)
    (feature : Feature) (resolution : ℚ) : StM (Option (List PrimStyle)) :=
  let properties := feature.properties
  let layerKey :=
    match alookup properties "layer" with
    | some (.str s) => s
    | some v => env.showV v
    | none => "undefined"
  match alookup cfg.layersBySourceLayer layerKey with
  | none => spure none
  | some lds =>
    let zoom := resolveZoom env resolutions resolution
    let fv : F := { properties := properties, type := (typesTable feature.geomType).getD 0 }
    sbind (evalLayersFold env lds zoom feature resolution fv) fun prims =>
    spure (if prims.isEmpty then none else some prims)

/-- The `source` argument of the constructor: a source key, or a list of
layer ids. -/
inductive SourceSel where
  | str (s : String)
  | ids (l : List String)
deriving DecidableEq, Repr

/-- The layer selection test (src/stylefunction.js lines 325-326):
`typeof source == 'string' && layer.source == source ||
source.indexOf(layerId) !== -1`. For a string selector the second disjunct
is a substring test of the layer id inside the source name, as in the
source. -/
def sourceMatches (sel : SourceSel) (layer : Layer) : Bool :=
  match sel with
  | .str s => decide (layer.source = s) || containsSub s.data layer.id.data
  | .ids l => l.contains layer.id

/-- The grouping loop of the constructor (src/stylefunction.js lines
322-344): selected layers are appended, with their document index, to their
`source-layer` group; their ids are recorded; the first selected layer's
source becomes `mapbox-source`. -/
def groupLayersAux (sel : SourceSel) : List Layer → ℕ → StyleFnData → StyleFnData
  | [], _, acc => acc
  | layer :: rest, i, acc =>
    let acc :=
      if sourceMatches sel layer then
        { layersBySourceLayer :=
            ainsert acc.layersBySourceLayer layer.sourceLayer
              ((alookup acc.layersBySourceLayer layer.sourceLayer).getD [] ++
                [{ layer := layer, index := i }])
          mapboxLayers := acc.mapboxLayers ++ [layer.id]
          mapboxSource :=
            match acc.mapboxSource with
            | none => some layer.source
            | some s => some s }
      else acc
    groupLayersAux sel rest (i + 1) acc

/-- Group the (already deref'd) layers of a style document. -/
def groupLayers (layers : List Layer) (sel : SourceSel) : StyleFnData :=
  groupLayersAux sel layers 0 ⟨[], [], none⟩

/-- Remove every entry with the given key (JS `delete cache[key]`). -/
def removeKey {κ α : Type} [DecidableEq κ] : List (κ × α) → κ → List (κ × α)
  | [], _ => []
  | (k', v) :: rest, k =>
    if k' = k then removeKey rest k else (k', v) :: removeKey rest k

/-- The cache invalidation the constructor performs for every layer id it
walks (src/stylefunction.js lines 342-343). -/
def clearLayerCaches (layers : List Layer) (st : EvalState) : EvalState :=
  { st with
    functionCache := layers.foldl (fun fc l => removeKey fc l.id) st.functionCache
    filterCache := layers.foldl (fun fc l => removeKey fc l.id) st.filterCache }

/-- A parsed style document: the top-level `version` and the (already
deref'd — `derefLayers` lives in the external style-spec package) layers.
String documents arrive JSON-parsed. -/
structure GlStyle where
  version : ℤ
  layers : List Layer
deriving DecidableEq, Repr

/-- The default resolutions pyramid built when none is supplied
(src/stylefunction.js lines 234-238): 21 power-of-two steps from
`78271.51696402048`. -/
def defaultResolutions : List ℚ :=
  (List.range 21).map (fun i => (78271.51696402048 : ℚ) / 2 ^ i)

/-- Embedding of the construction path of the default export
(src/stylefunction.js lines 233-740) up to the point where the style
function exists: default resolutions, the `version != 8` guard, and the
layer grouping. Sprite-image loading is an asynchronous external effect and
the canvas context creation is external; both are carried by `Env`. An
error result models the synchronous throw: `olLayer.setStyle` and the
`mapbox-source`/`mapbox-layers` tags happen only after all of this
(lines 736-738), so on a thrown error nothing is set on the layer. -/
def stylefunction (glStyle : GlStyle) (sel : SourceSel)
    (resolutions : Option (List ℚ)) : Except String (StyleFnData × List ℚ) :=
  let res :=
    match resolutions with
    | some r => r
    | none => defaultResolutions
  if glStyle.version ≠ 8 then Except.error "glStyle version 8 required."
  else Except.ok (groupLayers glStyle.layers sel, res)

/-- The properties whose `getValue` call sites read the `layout` bag. The
`functionCache` is keyed by property name only (not by bag), which is sound
because every call site uses a fixed bag per property name; this table
records that assignment. -/
def layoutPropsList : List String :=
  ["line-cap", "line-join", "line-miter-limit", "icon-image", "icon-size",
   "icon-anchor", "icon-offset", "icon-rotate", "text-field", "text-size",
   "text-line-height", "text-font", "text-max-width", "text-rotate",
   "text-anchor", "symbol-placement", "text-offset", "text-max-angle"]

/-- The bag a property name is read from at its call sites. -/
def bagForProp (p : String) : Bag :=
  if layoutPropsList.contains p then .layout else .paint

/-- All layers reachable from a constructed style-function's groups. -/
def allLayersOf (cfg : StyleFnData) : List Layer :=
  (cfg.layersBySourceLayer.map (fun g => g.2.map (fun ld => ld.layer))).flatten

/-- Layer ids are unique (the style-spec data-model invariant: an id is
unique within the document). -/
def IdsOK (layers : List Layer) : Prop :=
  ∀ l1 ∈ layers, ∀ l2 ∈ layers, l1.id = l2.id → l1 = l2

/-- Consistency of the `functionCache` with an unchanged style document:
every cached compiled value for a layer id equals what a fresh compile of
that layer's raw value would store. -/
def FuncCon (env : Env) (layers : List Layer)
    (fc : List (String × List (String × RawValue))) : Prop :=
  ∀ l ∈ layers, ∀ p r, alookup ((alookup fc l.id).getD []) p = some r →
    r = resolveRaw env l (bagForProp p) p

/-- Consistency of the `filterCache`: every cached compiled filter for a
layer id is the compile of that layer's filter. -/
def FilterCon (layers : List Layer) (flc : List (String × FilterExpr)) : Prop :=
  ∀ l ∈ layers, ∀ fe, alookup flc l.id = some fe → l.filter = some fe

/-- Consistency of the `iconImageCache`: every icon entry is the build
determined by its own key, and no circle entry exists (the circle branch
never stores one — see `circleCacheLookup`). -/
def IconCon (env : Env) (ic : List (CacheKey × ImageVal)) : Prop :=
  ∀ k v, alookup ic k = some v →
    match k with
    | .iconK icon iconSize iconTranslate _ iconAnchor iconOffset anchorOffset iconColor =>
      v = .iconI (buildIconFromKey env icon iconSize iconTranslate iconAnchor iconOffset
            anchorOffset iconColor)
    | .circleK _ _ _ _ _ _ => False

/-- Warm-cache consistency of the full shared state with an unchanged style
document. -/
def StCon (env : Env) (layers : List Layer) (st : EvalState) : Prop :=
  FuncCon env layers st.functionCache ∧ FilterCon layers st.filterCache ∧
    IconCon env st.iconImageCache

/-- Determinism of a stateful computation relative to an invariant `P`: from
any two `P`-states it returns the same value, and it preserves `P`. -/
def DetM {α : Type} (P : EvalState → Prop) (m : StM α) : Prop :=
  (∀ st st', P st → P st' → (m st).1 = (m st').1) ∧ (∀ st, P st → P (m st).2)

/-- A fill layer with a colour and an opacity and nothing else
(test fixture for the fill-emission properties). -/
def fillLayerNoAA (fcRaw opRaw : RawValue) : Layer :=
  { id := "fill-layer", type := "fill", source := "src1", sourceLayer := "sl",
    minzoom := none, maxzoom := none, layout := [],
    paint := [("fill-color", fcRaw), ("fill-opacity", opRaw)], filter := none }

/-- The same fill layer with `fill-antialias: true` added. -/
def fillLayerAA (fcRaw opRaw : RawValue) : Layer :=
  { id := "fill-layer", type := "fill", source := "src1", sourceLayer := "sl",
    minzoom := none, maxzoom := none, layout := [],
    paint := [("fill-color", fcRaw), ("fill-opacity", opRaw),
              ("fill-antialias", .const (.bool true))],
    filter := none }

/-- A line layer with explicit colour, opacity, width, dash array and layout
properties (test fixture for the line-emission properties). -/
def lineLayerPlain (lcRaw loRaw lwRaw : RawValue) (dash : Option (List ℚ)) : Layer :=
  { id := "line-layer", type := "line", source := "src1", sourceLayer := "sl",
    minzoom := none, maxzoom := none,
    layout := [("line-cap", .const (.str "butt")), ("line-join", .const (.str "miter")),
               ("line-miter-limit", .const (.num 2))],
    paint := [("line-color", lcRaw), ("line-opacity", loRaw), ("line-width", lwRaw)] ++
      (match dash with
       | some d => [("line-dasharray", RawValue.const (.numList d))]
       | none => []),
    filter := none }

/-- The same line layer with `line-pattern` present in the paint bag. -/
def lineLayerPatterned (lcRaw loRaw lwRaw : RawValue) : Layer :=
  { id := "line-layer", type := "line", source := "src1", sourceLayer := "sl",
    minzoom := none, maxzoom := none,
    layout := [("line-cap", .const (.str "butt")), ("line-join", .const (.str "miter")),
               ("line-miter-limit", .const (.num 2))],
    paint := [("line-pattern", .const (.str "stripes")), ("line-color", lcRaw),
              ("line-opacity", loRaw), ("line-width", lwRaw)],
    filter := none }

/-- A circle layer with all six circle paint properties explicit
(test fixture for the circle cache behaviour). -/
def circleLayerT : Layer :=
  { id := "circle-layer", type := "circle", source := "src1", sourceLayer := "sl",
    minzoom := none, maxzoom := none, layout := [],
    paint := [("circle-radius", .const (.num 5)),
              ("circle-stroke-color", .const (.col ⟨0, 0, 0, 1⟩)),
              ("circle-color", .const (.col ⟨1, 0, 0, 1⟩)),
              ("circle-opacity", .const (.num 1)),
              ("circle-stroke-width", .const (.num 2)),
              ("circle-stroke-opacity", .const (.num 1))],
    filter := none }

/-- A point feature on sub-layer `sl` (test fixture). -/
def pointFeatureT : Feature :=
  { properties := [("layer", .str "sl")], geomType := "Point",
    extent := (0, 0, (0, 0)), flatMidpoint := none }

/-- A concrete environment for witness evaluations. -/
def testEnv : Env :=
  { dflt := fun _ _ => .undef
    spriteImage := false
    spriteData := []
    availableFonts := none
    showV := fun _ => ""
    parseNum := fun _ => 0
    deg2rad := fun q => q
    mb2css := fun f _ => f
    cw := fun _ _ => 1
    fallbackZoom := fun _ => 0
    templateFuel := 8 }

/-- A constructed style-function configuration holding the circle fixture
layer (witness fixture for the idempotence property). -/
def testCfg : StyleFnData := groupLayers [circleLayerT] (.ids ["circle-layer"])

/-- A character width table for text-wrapping witnesses: `'M'` measures 1,
everything else 10. -/
def cwTest : Char → ℚ := fun c => if c = 'M' then 1 else 10

/-- A layer with explicit zoom bounds 5 and 10 (witness fixture for the zoom
gate property). -/
def zoomBoundsLayer : Layer :=
  { id := "zoomed-layer", type := "fill", source := "src1", sourceLayer := "sl",
    minzoom := some 5, maxzoom := some 10, layout := [],
    paint := [("fill-color", .const (.col ⟨0, 0, 1, 1⟩)), ("fill-opacity", .const (.num 1))],
    filter := none }

/-! ### Association-list lemmas -/

theorem alookup_ainsert_self {κ α : Type} [DecidableEq κ] (l : List (κ × α)) (k : κ) (v : α) :
    alookup (ainsert l k v) k = some v := by
  induction l with
  | nil => simp [ainsert, alookup]
  | cons hd tl ih =>
    obtain ⟨k', v'⟩ := hd
    by_cases h : k' = k
    · simp [ainsert, h, alookup]
    · simp [ainsert, h, alookup, ih]

theorem alookup_ainsert_ne {κ α : Type} [DecidableEq κ] (l : List (κ × α)) (k k' : κ) (v : α)
    (h : k' ≠ k) : alookup (ainsert l k v) k' = alookup l k' := by
  have h' : ¬ k = k' := fun he => h he.symm
  induction l with
  | nil => simp [ainsert, alookup, h']
  | cons hd tl ih =>
    obtain ⟨k₀, v₀⟩ := hd
    by_cases h0 : k₀ = k
    · subst h0
      simp [ainsert, alookup, h']
    · simp [ainsert, h0, alookup, ih]

theorem alookup_mem {κ α : Type} [DecidableEq κ] {l : List (κ × α)} {k : κ} {v : α}
    (h : alookup l k = some v) : (k, v) ∈ l := by
  induction l with
  | nil => simp [alookup] at h
  | cons hd tl ih =>
    obtain ⟨k', v'⟩ := hd
    by_cases hk : k' = k
    · subst hk
      simp [alookup] at h
      subst h
      exact List.mem_cons_self _ _
    · simp [alookup, hk] at h
      exact List.mem_cons_of_mem _ (ih h)

/-! ### Determinism framework for the shared caches -/

theorem detM_spure {α : Type} {P : EvalState → Prop} (a : α) : DetM P (spure a) :=
  ⟨fun _ _ _ _ => rfl, fun _ h => h⟩

theorem detM_sbind {α β : Type} {P : EvalState → Prop} {m : StM α} {k : α → StM β}
    (hm : DetM P m) (hk : ∀ a, DetM P (k a)) : DetM P (sbind m k) := by
  constructor
  · intro st st' hst hst'
    show (k (m st).1 (m st).2).1 = (k (m st').1 (m st').2).1
    rw [hm.1 st st' hst hst']
    exact ((hk (m st').1).1 (m st).2 (m st').2 (hm.2 st hst) (hm.2 st' hst'))
  · intro st hst
    exact (hk (m st).1).2 (m st).2 (hm.2 st hst)

theorem detM_ite {α : Type} {P : EvalState → Prop} (c : Prop) [Decidable c] {m1 m2 : StM α}
    (h1 : DetM P m1) (h2 : DetM P m2) : DetM P (if c then m1 else m2) := by
  by_cases h : c
  · simpa [h] using h1
  · simpa [h] using h2

theorem stcon_empty (env : Env) (layers : List Layer) : StCon env layers emptyState := by
  refine ⟨?_, ?_, ?_⟩
  · intro l _ p r h
    simp [emptyState, alookup] at h
  · intro l _ fe h
    simp [emptyState, alookup] at h
  · intro k v h
    simp [emptyState, alookup] at h

theorem evalRaw_const (v : Val) (zoom : ℚ) (fv : F) : evalRaw (.const v) zoom fv = v := rfl

/-! ### Claim theorems -/

/-- C10: for a defined input colour, `colorWithOpacity` returns `undefined`
exactly when the colour's alpha is `0` or the supplied opacity is `0`; an
undefined opacity behaves as `1`; and whenever a defined result is produced
the alpha is nonzero (so the channel divisions by alpha only happen with a
nonzero divisor). -/
theorem colorWithOpacity_transparent_iff (c : Color) (op : Option ℚ) :
    (colorWithOpacity (some c) op = none ↔ c.a = 0 ∨ op = some 0) ∧
    colorWithOpacity (some c) none = colorWithOpacity (some c) (some 1) ∧
    (∀ r, colorWithOpacity (some c) op = some r → c.a ≠ 0) := by
  refine ⟨?_, ?_, ?_⟩
  · by_cases h : c.a = 0 ∨ op = some 0 <;> simp [colorWithOpacity, h]
  · by_cases hca : c.a = 0 <;> simp [colorWithOpacity, hca]
  · intro r hr
    by_cases h : c.a = 0 ∨ op = some 0
    · simp [colorWithOpacity, h] at hr
    · exact (not_or.mp h).1

/-- Witness for C10 at a concrete opaque red and opacities `0` and `1/2`. -/
theorem colorWithOpacity_transparent_iff_witness :
    colorWithOpacity (some ⟨1, 0, 0, 1⟩) (some 0) = none ∧
    (⟨1, 0, 0, (1 : ℚ)⟩ : Color).a ≠ 0 :=
  ⟨(colorWithOpacity_transparent_iff ⟨1, 0, 0, 1⟩ (some 0)).1.mpr (Or.inr rfl),
   (colorWithOpacity_transparent_iff ⟨1, 0, 0, 1⟩ (some (1/2))).2.2
     ⟨255, 0, 0, 1/2⟩ (by norm_num [colorWithOpacity, jsRound])⟩

/-- C8: the anchor-offset table of `covertIconAnchor`: the four corner
keywords map to offset `(0,0)`, `left` to `(0,0.5)`, `right` to `(1,0.5)`,
`bottom` to `(0.5,1)`, `top` to `(0.5,0)`, and `center` like every other
value to the default `(0.5,0.5)`. -/
theorem covertIconAnchor_table :
    (covertIconAnchor "top-left").anchorOffset = (0, 0) ∧
    (covertIconAnchor "top-right").anchorOffset = (0, 0) ∧
    (covertIconAnchor "bottom-left").anchorOffset = (0, 0) ∧
    (covertIconAnchor "bottom-right").anchorOffset = (0, 0) ∧
    (covertIconAnchor "left").anchorOffset = (0, 1/2) ∧
    (covertIconAnchor "right").anchorOffset = (1, 1/2) ∧
    (covertIconAnchor "bottom").anchorOffset = (1/2, 1) ∧
    (covertIconAnchor "top").anchorOffset = (1/2, 0) ∧
    (covertIconAnchor "center").anchorOffset = (1/2, 1/2) ∧
    (∀ s, s ∉ (["top-left", "top-right", "bottom-left", "bottom-right",
                "left", "right", "bottom", "top"] : List String) →
      (covertIconAnchor s).anchorOffset = (1/2, 1/2)) := by
  refine ⟨by simp [covertIconAnchor], by simp [covertIconAnchor], by simp [covertIconAnchor],
    by simp [covertIconAnchor], by simp [covertIconAnchor], by simp [covertIconAnchor],
    by simp [covertIconAnchor], by simp [covertIconAnchor], by simp [covertIconAnchor], ?_⟩
  intro s hs
  simp only [List.mem_cons, List.mem_singleton, not_or] at hs
  obtain ⟨h1, h2, h3, h4, h5, h6, h7, h8⟩ := hs
  simp [covertIconAnchor, h1, h2, h3, h4, h5, h6, h7, h8]

/-- Witness for C8's default case at the unlisted keyword `"diagonal"`. -/
theorem covertIconAnchor_table_witness :
    (covertIconAnchor "diagonal").anchorOffset = (1/2, 1/2) :=
  covertIconAnchor_table.2.2.2.2.2.2.2.2.2 "diagonal" (by decide)

/-- C6: the circle primitive has no stroke sub-object exactly when the
resolved `circle-stroke-width` is `0`; any other resolved width attaches a
stroke sub-object carrying that width (and the resolved stroke colour). -/
theorem circle_stroke_zero_width (r w : ℚ) (sc cc : Option Color) (so co : Option ℚ) :
    ((buildCircle r w sc cc so co).stroke = none ↔ w = 0) ∧
    (w ≠ 0 → (buildCircle r w sc cc so co).stroke =
      some { width := w, color := colorWithOpacity sc so }) := by
  constructor
  · by_cases h : w = 0 <;> simp [buildCircle, h]
  · intro h
    simp [buildCircle, h]

/-- Witness for C6 at widths `0` and `3`. -/
theorem circle_stroke_zero_width_witness :
    (buildCircle 5 0 none none none none).stroke = none ∧
    (buildCircle 5 3 none none none none).stroke = some { width := 3, color := none } :=
  ⟨(circle_stroke_zero_width 5 0 none none none none).1.mpr rfl,
   (circle_stroke_zero_width 5 3 none none none none).2 (by decide)⟩

/-- C2: for every style document whose top-level `version` is not `8`,
construction throws synchronously with the fixed message; the error result
carries no constructed style data, and in the source `olLayer.setStyle` and
the layer tags only run after this point, so nothing is set on the layer. -/
theorem version_mismatch_errors (g : GlStyle) (sel : SourceSel) (res : Option (List ℚ))
    (h : g.version ≠ 8) :
    stylefunction g sel res = Except.error "glStyle version 8 required." := by
  simp [stylefunction, h]

/-- Witness for C2 at a concrete version-7 document. -/
theorem version_mismatch_errors_witness :
    stylefunction ⟨7, []⟩ (.str "src1") none = Except.error "glStyle version 8 required." :=
  version_mismatch_errors ⟨7, []⟩ (.str "src1") none (by decide)

theorem splitOnChar_no_sep {sep : Char} {s : List Char} (h : ∀ c ∈ s, c ≠ sep) :
    splitOnChar sep s = [s] := by
  induction s with
  | nil => simp [splitOnChar]
  | cons c rest ih =>
    have hc : c ≠ sep := h c (List.mem_cons_self _ _)
    have ih' := ih (fun x hx => h x (List.mem_cons_of_mem _ hx))
    simp [splitOnChar, ih', hc]

/-- C7: a single word wider than the pixel budget (the measured width of
`'M'` times the em budget) is returned by the text wrapper unsplit as its
own single output line — no truncation, no hyphenation; likewise a single
CJK character wider than the budget survives the per-character fallback as
its own line. -/
theorem overlong_word_own_line (cw : Char → ℚ) (em : ℚ) :
    (∀ text : List Char, hasCJK text = false → (∀ c ∈ text, c ≠ ' ') → text ≠ [] →
      measureW cw text > cw 'M' * em → wrapText cw text em = [text]) ∧
    (∀ c : Char, isCJK c = true → cw c > cw 'M' * em → wrapText cw [c] em = [[c]]) := by
  constructor
  · intro text hcjk hns hne hw
    have h1 : splitOnChar ' ' text = [text] := splitOnChar_no_sep hns
    have h2 : ¬ (measureW cw text ≤ cw 'M' * em) := not_le.mpr hw
    simp [wrapText, hcjk, h1, wrapLoop, h2, hne]
  · intro c hc hw
    rcases le_or_lt 0 (cw 'M' * em) with h0 | h0
    · simp [wrapText, hasCJK, hc, wrapChineseText, chineseLoop, wrapLoop, measureW, hw,
        not_le.mpr hw, h0]
    · simp [wrapText, hasCJK, hc, wrapChineseText, chineseLoop, wrapLoop, measureW, hw,
        not_le.mpr hw, not_le.mpr h0]

/-- Witness for C7: the four-letter word `abcd` (width 40 under `cwTest`,
budget 4) comes back unsplit, and the CJK character `中` (width 10) comes
back alone. -/
theorem overlong_word_own_line_witness :
    wrapText cwTest ['a', 'b', 'c', 'd'] 4 = [['a', 'b', 'c', 'd']] ∧
    wrapText cwTest ['中'] 4 = [['中']] :=
  ⟨(overlong_word_own_line cwTest 4).1 ['a', 'b', 'c', 'd'] (by decide) (by decide)
     (by decide) (by simp +decide [measureW, cwTest]; norm_num),
   (overlong_word_own_line cwTest 4).2 '中' (by decide) (by simp +decide [cwTest])⟩

/-- C1: for a layer with both zoom bounds, the per-layer evaluation
contributes no style primitive whenever the resolved zoom is below
`minzoom` or at or above `maxzoom`; and (for a layer not hidden by
visibility) the skip gate passes exactly on `minzoom ≤ zoom < maxzoom` —
the `minzoom` bound inclusive, the `maxzoom` bound exclusive. -/
theorem zoom_gate_minzoom_incl_maxzoom_excl (env : Env) (ld : LayerData) (zoom : ℚ)
    (feature : Feature) (resolution : ℚ) (fv : F) (st : EvalState) (m mz : ℚ)
    (hm : ld.layer.minzoom = some m) (hM : ld.layer.maxzoom = some mz) :
    ((zoom < m ∨ mz ≤ zoom) → (evalLayer env ld zoom feature resolution fv st).1 = []) ∧
    (alookup ld.layer.layout "visibility" ≠ some (.const (.str "none")) →
      (layerSkipped ld.layer zoom = false ↔ m ≤ zoom ∧ zoom < mz)) := by
  constructor
  · intro h
    have hskip : layerSkipped ld.layer zoom = true := by
      simp only [layerSkipped, hm, hM, Bool.or_eq_true, decide_eq_true_eq, ge_iff_le]
      rcases h with h | h
      · exact Or.inl (Or.inr h)
      · exact Or.inr h
    simp [evalLayer, hskip, spure]
  · intro hvis
    simp only [layerSkipped, hm, hM, Bool.or_eq_false_iff, decide_eq_false_iff_not,
      ge_iff_le, not_lt, not_le]
    constructor
    · intro hh
      exact ⟨hh.1.2, hh.2⟩
    · intro hh
      exact ⟨⟨hvis, hh.1⟩, hh.2⟩

/-- Witness for C1 on the fixture layer with `minzoom 5, maxzoom 10`:
zoom 4 and zoom 10 yield no contribution, zoom 9.99 passes the gate. -/
theorem zoom_gate_minzoom_incl_maxzoom_excl_witness :
    (evalLayer testEnv ⟨zoomBoundsLayer, 0⟩ 4 pointFeatureT 1 ⟨[], 3⟩ emptyState).1 = [] ∧
    (evalLayer testEnv ⟨zoomBoundsLayer, 0⟩ 10 pointFeatureT 1 ⟨[], 3⟩ emptyState).1 = [] ∧
    layerSkipped zoomBoundsLayer (999/100) = false :=
  ⟨(zoom_gate_minzoom_incl_maxzoom_excl testEnv ⟨zoomBoundsLayer, 0⟩ 4 pointFeatureT 1
      ⟨[], 3⟩ emptyState 5 10 rfl rfl).1 (Or.inl (by norm_num)),
   (zoom_gate_minzoom_incl_maxzoom_excl testEnv ⟨zoomBoundsLayer, 0⟩ 10 pointFeatureT 1
      ⟨[], 3⟩ emptyState 5 10 rfl rfl).1 (Or.inr (by norm_num)),
   ((zoom_gate_minzoom_incl_maxzoom_excl testEnv ⟨zoomBoundsLayer, 0⟩ (999/100) pointFeatureT 1
      ⟨[], 3⟩ emptyState 5 10 rfl rfl).2 (by decide)).mpr ⟨by norm_num, by norm_num⟩⟩

/-- C3: a polygon feature on a fill layer whose paint has `fill-color` (with
a visible resolved colour) but neither `fill-outline-color` nor
`fill-antialias` produces exactly one primitive, a fill; adding
`fill-antialias: true` produces exactly one additional primitive, a width-1
outline stroke whose colour equals the resolved fill colour. -/
theorem fill_antialias_outline (env : Env) (fcRaw opRaw : RawValue) (zoom : ℚ)
    (feature : Feature) (resolution : ℚ) (fv : F) (hft : fv.type = 3) (c : RGBA)
    (hc : colorWithOpacity (valToColorOpt (evalRaw fcRaw zoom fv))
      (some (valToNum (evalRaw opRaw zoom fv))) = some c) :
    (evalLayer env ⟨fillLayerNoAA fcRaw opRaw, 0⟩ zoom feature resolution fv emptyState).1 =
      [{ fill := some (.colorV c), stroke := none, image := none, text := none,
         geometry := none, zIndex := 0 }] ∧
    (evalLayer env ⟨fillLayerAA fcRaw opRaw, 0⟩ zoom feature resolution fv emptyState).1 =
      [{ fill := some (.colorV c), stroke := none, image := none, text := none,
         geometry := none, zIndex := 0 },
       { fill := none,
         stroke := some { color := c, width := 1, lineCap := none, lineJoin := none,
                          miterLimit := none, lineDash := none },
         image := none, text := none, geometry := none, zIndex := 0 }] := by
  constructor
  · simp +decide [evalLayer, fillLayerNoAA, layerSkipped, fillStep, lineStep, iconStep,
      circleBranchStep, textStep, getValueS, resolveRaw, alookup, ainsert, sbind, spure,
      emptyState, hft, hc, Layer.bagOf]
  · simp +decide [evalLayer, fillLayerAA, layerSkipped, fillStep, lineStep, iconStep,
      circleBranchStep, textStep, getValueS, resolveRaw, alookup, ainsert, sbind, spure,
      emptyState, hft, hc, Layer.bagOf]

/-- Witness for C3 at a concrete opaque red fill at opacity 1. -/
theorem fill_antialias_outline_witness :
    (evalLayer testEnv ⟨fillLayerNoAA (.const (.col ⟨1, 0, 0, 1⟩)) (.const (.num 1)), 0⟩
        0 pointFeatureT 1 ⟨[], 3⟩ emptyState).1 =
      [{ fill := some (.colorV ⟨255, 0, 0, 1⟩), stroke := none, image := none, text := none,
         geometry := none, zIndex := 0 }] ∧
    (evalLayer testEnv ⟨fillLayerAA (.const (.col ⟨1, 0, 0, 1⟩)) (.const (.num 1)), 0⟩
        0 pointFeatureT 1 ⟨[], 3⟩ emptyState).1 =
      [{ fill := some (.colorV ⟨255, 0, 0, 1⟩), stroke := none, image := none, text := none,
         geometry := none, zIndex := 0 },
       { fill := none,
         stroke := some { color := ⟨255, 0, 0, 1⟩, width := 1, lineCap := none,
                          lineJoin := none, miterLimit := none, lineDash := none },
         image := none, text := none, geometry := none, zIndex := 0 }] :=
  fill_antialias_outline testEnv (.const (.col ⟨1, 0, 0, 1⟩)) (.const (.num 1)) 0
    pointFeatureT 1 ⟨[], 3⟩ rfl ⟨255, 0, 0, 1⟩
    (by norm_num [colorWithOpacity, jsRound, valToColorOpt, valToNum, evalRaw])

set_option maxHeartbeats 2000000 in
/-- C4: a line layer with `line-pattern` present emits no stroke; a resolved
`line-width` that is not positive emits no stroke; and an emitted stroke
with a present `line-dasharray` carries the dash entries multiplied by the
resolved line width. -/
theorem line_pattern_width_dash (env : Env) (lcRaw loRaw lwRaw : RawValue) (zoom : ℚ)
    (feature : Feature) (resolution : ℚ) (fv : F) (hft : fv.type = 2) :
    ((evalLayer env ⟨lineLayerPatterned lcRaw loRaw lwRaw, 0⟩ zoom feature resolution fv
        emptyState).1 = []) ∧
    (valToNum (evalRaw lwRaw zoom fv) ≤ 0 →
      (evalLayer env ⟨lineLayerPlain lcRaw loRaw lwRaw none, 0⟩ zoom feature resolution fv
        emptyState).1 = []) ∧
    (∀ (d : List ℚ) (c : RGBA),
      colorWithOpacity (valToColorOpt (evalRaw lcRaw zoom fv))
        (some (valToNum (evalRaw loRaw zoom fv))) = some c →
      0 < valToNum (evalRaw lwRaw zoom fv) →
      (evalLayer env ⟨lineLayerPlain lcRaw loRaw lwRaw (some d), 0⟩ zoom feature resolution
        fv emptyState).1 =
        [{ fill := none,
           stroke := some { color := c, width := valToNum (evalRaw lwRaw zoom fv),
                            lineCap := some (.str "butt"), lineJoin := some (.str "miter"),
                            miterLimit := some (.num 2),
                            lineDash := some (d.map (fun x =>
                              x * valToNum (evalRaw lwRaw zoom fv))) },
           image := none, text := none, geometry := none, zIndex := 0 }]) := by
  refine ⟨?_, ?_, ?_⟩
  · simp +decide [evalLayer, lineLayerPatterned, layerSkipped, fillStep, lineStep, iconStep,
      circleBranchStep, textStep, getValueS, resolveRaw, alookup, ainsert, sbind, spure,
      emptyState, hft, Layer.bagOf]
  · intro hw
    simp +decide [evalLayer, lineLayerPlain, layerSkipped, fillStep, lineStep, iconStep,
      circleBranchStep, textStep, getValueS, resolveRaw, alookup, ainsert, sbind, spure,
      emptyState, hft, Layer.bagOf, not_lt.mpr hw]
    rcases colorWithOpacity (valToColorOpt (evalRaw lcRaw zoom fv))
        (some (valToNum (evalRaw loRaw zoom fv))) with _ | c <;> rfl
  · intro d c hc hw
    simp +decide [evalLayer, lineLayerPlain, layerSkipped, fillStep, lineStep, iconStep,
      circleBranchStep, textStep, getValueS, resolveRaw, alookup, ainsert, sbind, spure,
      emptyState, hft, Layer.bagOf, hc, hw, valToNumList, evalRaw_const]

/-- Witness for C4: a zero-width line yields nothing; a width-2 line with
dash `[1, 2]` yields one stroke with dash `[2, 4]`. -/
theorem line_pattern_width_dash_witness :
    ((evalLayer testEnv ⟨lineLayerPatterned (.const (.col ⟨0, 0, 1, 1⟩)) (.const (.num 1))
        (.const (.num 2)), 0⟩ 0 pointFeatureT 1 ⟨[], 2⟩ emptyState).1 = []) ∧
    ((evalLayer testEnv ⟨lineLayerPlain (.const (.col ⟨0, 0, 1, 1⟩)) (.const (.num 1))
        (.const (.num 0)) none, 0⟩ 0 pointFeatureT 1 ⟨[], 2⟩ emptyState).1 = []) ∧
    ((evalLayer testEnv ⟨lineLayerPlain (.const (.col ⟨0, 0, 1, 1⟩)) (.const (.num 1))
        (.const (.num 2)) (some [1, 2]), 0⟩ 0 pointFeatureT 1 ⟨[], 2⟩ emptyState).1 =
      [{ fill := none,
         stroke := some { color := ⟨0, 0, 255, 1⟩, width := 2, lineCap := some (.str "butt"),
                          lineJoin := some (.str "miter"), miterLimit := some (.num 2),
                          lineDash := some [2, 4] },
         image := none, text := none, geometry := none, zIndex := 0 }]) := by
  refine ⟨?_, ?_, ?_⟩
  · exact (line_pattern_width_dash testEnv (.const (.col ⟨0, 0, 1, 1⟩)) (.const (.num 1))
      (.const (.num 2)) 0 pointFeatureT 1 ⟨[], 2⟩ rfl).1
  · exact (line_pattern_width_dash testEnv (.const (.col ⟨0, 0, 1, 1⟩)) (.const (.num 1))
      (.const (.num 0)) 0 pointFeatureT 1 ⟨[], 2⟩ rfl).2.1 (by norm_num [valToNum, evalRaw])
  · have h := (line_pattern_width_dash testEnv (.const (.col ⟨0, 0, 1, 1⟩)) (.const (.num 1))
      (.const (.num 2)) 0 pointFeatureT 1 ⟨[], 2⟩ rfl).2.2 [1, 2] ⟨0, 0, 255, 1⟩
      (by norm_num [colorWithOpacity, jsRound, valToColorOpt, valToNum, evalRaw])
      (by norm_num [valToNum, evalRaw])
    norm_num [valToNum, evalRaw] at h
    exact h

/-- C5 counterexample: evaluating the concrete circle layer emits one circle
primitive, yet the `iconImageCache` stays empty after the call — the built
circle is never stored — and stays empty after a second identical call as
well, so the second evaluation cannot reuse a stored circle image: it builds
the primitive anew. This refutes the claimed caching of composited circle
primitives. -/
theorem circle_cache_never_stores :
    ((evalLayer testEnv ⟨circleLayerT, 0⟩ 0 pointFeatureT 1 ⟨pointFeatureT.properties, 1⟩
        emptyState).1.map (fun p => p.image.isSome) = [true]) ∧
    ((evalLayer testEnv ⟨circleLayerT, 0⟩ 0 pointFeatureT 1 ⟨pointFeatureT.properties, 1⟩
        emptyState).2.iconImageCache = []) ∧
    ((evalLayer testEnv ⟨circleLayerT, 0⟩ 0 pointFeatureT 1 ⟨pointFeatureT.properties, 1⟩
        ((evalLayer testEnv ⟨circleLayerT, 0⟩ 0 pointFeatureT 1
          ⟨pointFeatureT.properties, 1⟩ emptyState).2)).2.iconImageCache = []) := by
  refine ⟨?_, ?_, ?_⟩ <;>
    simp +decide [evalLayer, circleLayerT, pointFeatureT, layerSkipped, fillStep, lineStep,
      iconStep, circleBranchStep, textStep, getValueS, resolveRaw, alookup, ainsert, sbind,
      spure, emptyState, Layer.bagOf, circleCacheStep, circleCacheLookup, testEnv]

/-- C5 amended: the circle branch consults `iconImageCache` under the full
parameter-tuple key but never stores the freshly built circle back: the
cache is returned unchanged, a missing key always yields the fresh build
(so a second evaluation with the same tuple builds a new circle again), and
an image is reused only when an entry already sits under the key. -/
theorem circle_cache_lookup_no_store (cache : List (CacheKey × ImageVal)) (key : CacheKey)
    (fresh : CircleData) :
    (circleCacheLookup cache key fresh).2 = cache ∧
    (alookup cache key = none → (circleCacheLookup cache key fresh).1 = .circleI fresh) ∧
    (∀ img, alookup cache key = some img → (circleCacheLookup cache key fresh).1 = img) := by
  refine ⟨?_, ?_, ?_⟩
  · rcases h : alookup cache key with _ | img <;> simp [circleCacheLookup, h]
  · intro h
    simp [circleCacheLookup, h]
  · intro img h
    simp [circleCacheLookup, h]

/-- Witness for the amended C5 on the empty cache. -/
theorem circle_cache_lookup_no_store_witness :
    (circleCacheLookup [] (.circleK (.num 5) .undef .undef .undef (.num 2) .undef)
      (buildCircle 5 2 none none none none)).1 =
      .circleI (buildCircle 5 2 none none none none) :=
  (circle_cache_lookup_no_store [] (.circleK (.num 5) .undef .undef .undef (.num 2) .undef)
    (buildCircle 5 2 none none none none)).2.1 rfl

theorem getValueS_det (env : Env) (layers : List Layer) (hids : IdsOK layers)
    (layer : Layer) (hmem : layer ∈ layers) (bag : Bag) (p : String)
    (hbag : bagForProp p = bag) (zoom : ℚ) (fv : F) :
    DetM (StCon env layers) (getValueS env layer bag p zoom fv) := by
  have hval : ∀ s, StCon env layers s →
      (getValueS env layer bag p zoom fv s).1 =
        evalRaw (resolveRaw env layer bag p) zoom fv := by
    intro s hs
    simp only [getValueS]
    rcases hcase : alookup ((alookup s.functionCache layer.id).getD []) p with _ | r
    · simp [hcase]
    · simp only [hcase]
      rw [hs.1 layer hmem p r hcase, hbag]
  constructor
  · intro st st' hst hst'
    rw [hval st hst, hval st' hst']
  · intro st hst
    simp only [getValueS]
    rcases hcase : alookup ((alookup st.functionCache layer.id).getD []) p with _ | r
    · simp only [hcase]
      refine ⟨?_, hst.2.1, hst.2.2⟩
      intro l hl p' r' hlook
      by_cases hid : l.id = layer.id
      · rw [hid, alookup_ainsert_self] at hlook
        simp only [Option.getD_some] at hlook
        by_cases hp : p' = p
        · subst hp
          rw [alookup_ainsert_self] at hlook
          injection hlook with h
          have hleq : l = layer := hids l hl layer hmem hid
          rw [hleq, ← h, hbag]
        · rw [alookup_ainsert_ne _ _ _ _ hp] at hlook
          rw [← hid] at hlook
          exact hst.1 l hl p' r' hlook
      · rw [alookup_ainsert_ne _ _ _ _ hid] at hlook
        exact hst.1 l hl p' r' hlook
    · simp only [hcase]
      exact hst

theorem evaluateFilterS_det (env : Env) (layers : List Layer) (hids : IdsOK layers)
    (layer : Layer) (hmem : layer ∈ layers) (fe : FilterExpr)
    (hf : layer.filter = some fe) (zoom : ℚ) (fv : F) :
    DetM (StCon env layers) (evaluateFilterS layer fe zoom fv) := by
  have hval : ∀ s, StCon env layers s →
      (evaluateFilterS layer fe zoom fv s).1 = evalFilter fe zoom fv := by
    intro s hs
    simp only [evaluateFilterS]
    rcases hcase : alookup s.filterCache layer.id with _ | cached
    · simp [hcase]
    · simp only [hcase]
      have hc := hs.2.1 layer hmem cached hcase
      rw [hf] at hc
      injection hc with h
      rw [h]
  constructor
  · intro st st' hst hst'
    rw [hval st hst, hval st' hst']
  · intro st hst
    simp only [evaluateFilterS]
    rcases hcase : alookup st.filterCache layer.id with _ | cached
    · simp only [hcase]
      refine ⟨hst.1, ?_, hst.2.2⟩
      intro l hl fe' hlook
      by_cases hid : l.id = layer.id
      · rw [hid, alookup_ainsert_self] at hlook
        injection hlook with h
        have hleq : l = layer := hids l hl layer hmem hid
        rw [hleq, hf, h]
      · rw [alookup_ainsert_ne _ _ _ _ hid] at hlook
        exact hst.2.1 l hl fe' hlook
    · simp only [hcase]
      exact hst

theorem iconCacheStep_det (env : Env) (layers : List Layer) (icon : String)
    (iconSizeV iconTranslateV iconTAV : Val) (ar : AnchorResult) (iconOffsetV : Val)
    (iconColor : Option Val) :
    DetM (StCon env layers)
      (iconCacheStep env icon iconSizeV iconTranslateV iconTAV ar iconOffsetV iconColor) := by
  have hval : ∀ s, StCon env layers s →
      (iconCacheStep env icon iconSizeV iconTranslateV iconTAV ar iconOffsetV iconColor s).1 =
        .iconI (buildIconFromKey env icon iconSizeV iconTranslateV ar.iconAnchor iconOffsetV
          ar.anchorOffset iconColor) := by
    intro s hs
    simp only [iconCacheStep]
    rcases hcase : alookup s.iconImageCache (.iconK icon iconSizeV iconTranslateV iconTAV
        ar.iconAnchor iconOffsetV ar.anchorOffset iconColor) with _ | img
    · simp [hcase]
    · simp only [hcase]
      exact (hs.2.2 _ img hcase)
  constructor
  · intro st st' hst hst'
    rw [hval st hst, hval st' hst']
  · intro st hst
    simp only [iconCacheStep]
    rcases hcase : alookup st.iconImageCache (.iconK icon iconSizeV iconTranslateV iconTAV
        ar.iconAnchor iconOffsetV ar.anchorOffset iconColor) with _ | img
    · simp only [hcase]
      refine ⟨hst.1, hst.2.1, ?_⟩
      intro k v hlook
      by_cases hk : k = .iconK icon iconSizeV iconTranslateV iconTAV ar.iconAnchor iconOffsetV
          ar.anchorOffset iconColor
      · rw [hk, alookup_ainsert_self] at hlook
        injection hlook with h
        rw [hk, ← h]
      · rw [alookup_ainsert_ne _ _ _ _ hk] at hlook
        exact hst.2.2 k v hlook
    · simp only [hcase]
      exact hst

theorem circleCacheStep_det (env : Env) (layers : List Layer)
    (rV scV ccV coV swV soV : Val) (fresh : CircleData) :
    DetM (StCon env layers) (circleCacheStep (.circleK rV scV ccV coV swV soV) fresh) := by
  have hnone : ∀ s, StCon env layers s →
      alookup s.iconImageCache (.circleK rV scV ccV coV swV soV) = none := by
    intro s hs
    rcases hcase : alookup s.iconImageCache (.circleK rV scV ccV coV swV soV) with _ | img
    · rfl
    · exact (hs.2.2 _ img hcase).elim
  constructor
  · intro st st' hst hst'
    simp only [circleCacheStep, circleCacheLookup, hnone st hst, hnone st' hst']
  · intro st hst
    simp only [circleCacheStep, circleCacheLookup, hnone st hst]
    exact hst

theorem fillStep_det (env : Env) (layers : List Layer) (hids : IdsOK layers)
    (layer : Layer) (hmem : layer ∈ layers) (index : ℕ) (zoom : ℚ) (fv : F)
    (properties : List (String × Val)) :
    DetM (StCon env layers) (fillStep env layer index zoom fv properties) := by
  unfold fillStep
  apply detM_ite
  · apply detM_sbind
      (getValueS_det env layers hids layer hmem .paint "fill-opacity" (by decide) zoom fv)
    intro opacityV
    apply detM_ite
    · apply detM_sbind
        (getValueS_det env layers hids layer hmem .paint "fill-pattern" (by decide) zoom fv)
      intro iconImageV
      apply detM_ite
      · exact detM_spure _
      · apply detM_ite
        · exact detM_spure _
        · exact detM_spure _
    · apply detM_ite
      · apply detM_sbind
          (getValueS_det env layers hids layer hmem .paint "fill-color" (by decide) zoom fv)
        intro fcV
        apply detM_sbind
        · apply detM_ite
          · exact detM_sbind (getValueS_det env layers hids layer hmem .paint
              "fill-outline-color" (by decide) zoom ⟨[], 0⟩) (fun _ => detM_spure _)
          · apply detM_ite
            · exact detM_spure _
            · exact detM_spure _
        · intro strokeColor
          cases strokeColor
          · exact detM_spure _
          · exact detM_spure _
      · exact detM_spure _
  · exact detM_spure _

theorem lineStep_det (env : Env) (layers : List Layer) (hids : IdsOK layers)
    (layer : Layer) (hmem : layer ∈ layers) (index : ℕ) (zoom : ℚ) (fv : F) :
    DetM (StCon env layers) (lineStep env layer index zoom fv) := by
  unfold lineStep
  apply detM_ite
  · apply detM_sbind
    · apply detM_ite
      · apply detM_sbind
          (getValueS_det env layers hids layer hmem .paint "line-color" (by decide) zoom fv)
        intro lcV
        exact detM_sbind (getValueS_det env layers hids layer hmem .paint "line-opacity"
          (by decide) zoom fv) (fun _ => detM_spure _)
      · exact detM_spure _
    · intro color
      apply detM_sbind
        (getValueS_det env layers hids layer hmem .paint "line-width" (by decide) zoom fv)
      intro widthV
      cases color
      · exact detM_spure _
      · apply detM_ite
        · apply detM_sbind
            (getValueS_det env layers hids layer hmem .layout "line-cap" (by decide) zoom fv)
          intro capV
          apply detM_sbind
            (getValueS_det env layers hids layer hmem .layout "line-join" (by decide) zoom fv)
          intro joinV
          apply detM_sbind (getValueS_det env layers hids layer hmem .layout
            "line-miter-limit" (by decide) zoom fv)
          intro miterV
          apply detM_sbind
          · apply detM_ite
            · exact detM_sbind (getValueS_det env layers hids layer hmem .paint
                "line-dasharray" (by decide) zoom fv) (fun _ => detM_spure _)
            · exact detM_spure _
          · intro dash
            exact detM_spure _
        · exact detM_spure _
  · exact detM_spure _

theorem iconStep_det (env : Env) (layers : List Layer) (hids : IdsOK layers)
    (layer : Layer) (hmem : layer ∈ layers) (index : ℕ) (zoom : ℚ) (fv : F)
    (feature : Feature) (resolution : ℚ) (properties : List (String × Val)) :
    DetM (StCon env layers)
      (iconStep env layer index zoom fv feature resolution properties) := by
  unfold iconStep
  apply detM_ite
  · apply detM_sbind
      (getValueS_det env layers hids layer hmem .layout "icon-image" (by decide) zoom fv)
    intro iconImageV
    apply detM_ite
    · exact detM_spure _
    · apply detM_ite
      · apply detM_ite
        · apply detM_sbind
            (getValueS_det env layers hids layer hmem .layout "icon-size" (by decide) zoom fv)
          intro iconSizeV
          apply detM_sbind
          · apply detM_ite
            · exact detM_sbind (getValueS_det env layers hids layer hmem .paint "icon-color"
                (by decide) zoom fv) (fun _ => detM_spure _)
            · exact detM_spure _
          · intro iconColor
            apply detM_sbind (getValueS_det env layers hids layer hmem .paint
              "icon-translate" (by decide) zoom fv)
            intro iconTranslateV
            apply detM_sbind (getValueS_det env layers hids layer hmem .paint
              "icon-translate-anchor" (by decide) zoom fv)
            intro iconTAV
            apply detM_sbind (getValueS_det env layers hids layer hmem .layout
              "icon-anchor" (by decide) zoom fv)
            intro iconAnchorValV
            apply detM_sbind (getValueS_det env layers hids layer hmem .layout
              "icon-offset" (by decide) zoom fv)
            intro iconOffsetV
            apply detM_sbind (iconCacheStep_det env layers _ _ _ _ _ _ _)
            intro iconImg
            apply detM_sbind (getValueS_det env layers hids layer hmem .layout
              "icon-rotate" (by decide) zoom fv)
            intro rotateV
            apply detM_sbind (getValueS_det env layers hids layer hmem .paint
              "icon-opacity" (by decide) zoom fv)
            intro iconOpV
            exact detM_spure _
        · exact detM_spure _
      · exact detM_spure _
  · exact detM_spure _

theorem circleBranchStep_det (env : Env) (layers : List Layer) (hids : IdsOK layers)
    (layer : Layer) (hmem : layer ∈ layers) (index : ℕ) (zoom : ℚ) (fv : F) :
    DetM (StCon env layers) (circleBranchStep env layer index zoom fv) := by
  unfold circleBranchStep
  apply detM_ite
  · apply detM_sbind
      (getValueS_det env layers hids layer hmem .paint "circle-radius" (by decide) zoom fv)
    intro rV
    apply detM_sbind (getValueS_det env layers hids layer hmem .paint "circle-stroke-color"
      (by decide) zoom fv)
    intro scV
    apply detM_sbind
      (getValueS_det env layers hids layer hmem .paint "circle-color" (by decide) zoom fv)
    intro ccV
    apply detM_sbind
      (getValueS_det env layers hids layer hmem .paint "circle-opacity" (by decide) zoom fv)
    intro coV
    apply detM_sbind (getValueS_det env layers hids layer hmem .paint "circle-stroke-width"
      (by decide) zoom fv)
    intro swV
    apply detM_sbind (getValueS_det env layers hids layer hmem .paint
      "circle-stroke-opacity" (by decide) zoom fv)
    intro soV
    apply detM_sbind (circleCacheStep_det env layers rV scV ccV coV swV soV _)
    intro img
    exact detM_spure _
  · exact detM_spure _

theorem textStep_det (env : Env) (layers : List Layer) (hids : IdsOK layers)
    (layer : Layer) (hmem : layer ∈ layers) (zoom : ℚ) (fv : F)
    (properties : List (String × Val)) (hasImage skipLabel : Bool) :
    DetM (StCon env layers) (textStep env layer zoom fv properties hasImage skipLabel) := by
  unfold textStep
  apply detM_sbind
  · apply detM_ite
    · exact detM_sbind (getValueS_det env layers hids layer hmem .layout "text-field"
        (by decide) zoom fv) (fun _ => detM_spure _)
    · exact detM_spure _
  · intro label0
    apply detM_ite
    · apply detM_sbind
        (getValueS_det env layers hids layer hmem .layout "text-size" (by decide) zoom fv)
      intro tsV
      apply detM_sbind (getValueS_det env layers hids layer hmem .layout "text-line-height"
        (by decide) zoom fv)
      intro tlhV
      apply detM_sbind
        (getValueS_det env layers hids layer hmem .layout "text-font" (by decide) zoom fv)
      intro tfontV
      apply detM_sbind
      · apply detM_ite
        · exact detM_spure _
        · exact detM_sbind (getValueS_det env layers hids layer hmem .layout
            "text-max-width" (by decide) zoom fv) (fun _ => detM_spure _)
      · intro wrappedLabel
        apply detM_sbind
          (getValueS_det env layers hids layer hmem .layout "text-rotate" (by decide) zoom fv)
        intro trV
        apply detM_sbind
          (getValueS_det env layers hids layer hmem .layout "text-anchor" (by decide) zoom fv)
        intro taV
        apply detM_sbind
        · apply detM_ite
          · exact detM_spure _
          · exact detM_sbind (getValueS_det env layers hids layer hmem .layout
              "symbol-placement" (by decide) zoom fv) (fun _ => detM_spure _)
        · intro placement
          apply detM_sbind (getValueS_det env layers hids layer hmem .paint
            "text-halo-width" (by decide) zoom fv)
          intro thwV
          apply detM_sbind
            (getValueS_det env layers hids layer hmem .layout "text-offset" (by decide) zoom fv)
          intro toV
          apply detM_sbind
            (getValueS_det env layers hids layer hmem .paint "text-translate" (by decide) zoom fv)
          intro ttV
          apply detM_sbind
          · apply detM_ite
            · exact detM_spure _
            · exact detM_sbind (getValueS_det env layers hids layer hmem .layout
                "text-max-angle" (by decide) zoom fv) (fun _ => detM_spure _)
          · intro alignAngle
            apply detM_sbind
              (getValueS_det env layers hids layer hmem .paint "text-opacity" (by decide) zoom fv)
            intro opV
            apply detM_sbind
              (getValueS_det env layers hids layer hmem .paint "text-color" (by decide) zoom fv)
            intro tcV
            apply detM_sbind (getValueS_det env layers hids layer hmem .paint
              "text-halo-color" (by decide) zoom fv)
            intro thcV
            apply detM_sbind
            · rcases colorWithOpacity (valToColorOpt thcV) (some (valToNum opV)) with _ | hc
              · exact detM_spure _
              · exact detM_sbind (getValueS_det env layers hids layer hmem .paint
                  "text-halo-width" (by decide) zoom fv) (fun _ => detM_spure _)
            · intro halo
              exact detM_spure _
    · exact detM_spure _

theorem evalLayer_det (env : Env) (layers : List Layer) (hids : IdsOK layers)
    (ld : LayerData) (hmem : ld.layer ∈ layers) (zoom : ℚ) (feature : Feature)
    (resolution : ℚ) (fv : F) :
    DetM (StCon env layers) (evalLayer env ld zoom feature resolution fv) := by
  unfold evalLayer
  apply detM_ite
  · exact detM_spure _
  · apply detM_sbind
    · rcases hf : ld.layer.filter with _ | fe
      · exact detM_spure _
      · exact evaluateFilterS_det env layers hids ld.layer hmem fe hf zoom fv
    · intro keep
      apply detM_ite
      · apply detM_sbind (fillStep_det env layers hids ld.layer hmem ld.index zoom fv
          feature.properties)
        intro fillPrims
        apply detM_sbind (lineStep_det env layers hids ld.layer hmem ld.index zoom fv)
        intro linePrims
        apply detM_sbind (iconStep_det env layers hids ld.layer hmem ld.index zoom fv
          feature resolution feature.properties)
        intro io
        apply detM_sbind (circleBranchStep_det env layers hids ld.layer hmem ld.index zoom fv)
        intro co
        apply detM_sbind (textStep_det env layers hids ld.layer hmem zoom fv
          feature.properties (io.hasImage || co.hasImage) io.skipLabel)
        intro tdOpt
        exact detM_spure _
      · exact detM_spure _

theorem evalLayersFold_det (env : Env) (layers : List Layer) (hids : IdsOK layers)
    (lds : List LayerData) (hsub : ∀ ld ∈ lds, ld.layer ∈ layers) (zoom : ℚ)
    (feature : Feature) (resolution : ℚ) (fv : F) :
    DetM (StCon env layers) (evalLayersFold env lds zoom feature resolution fv) := by
  induction lds with
  | nil =>
    unfold evalLayersFold
    exact detM_spure _
  | cons ld rest ih =>
    unfold evalLayersFold
    apply detM_sbind (evalLayer_det env layers hids ld
      (hsub ld (List.mem_cons_self _ _)) zoom feature resolution fv)
    intro prims
    apply detM_sbind (ih (fun x hx => hsub x (List.mem_cons_of_mem _ hx)))
    intro restPrims
    exact detM_spure _

theorem mem_allLayersOf {cfg : StyleFnData} {key : String} {lds : List LayerData}
    (h : alookup cfg.layersBySourceLayer key = some lds) {ld : LayerData}
    (hld : ld ∈ lds) : ld.layer ∈ allLayersOf cfg := by
  have hmem := alookup_mem h
  unfold allLayersOf
  rw [List.mem_flatten]
  refine ⟨lds.map (fun x => x.layer), ?_, List.mem_map_of_mem _ hld⟩
  exact List.mem_map_of_mem (fun g => g.2.map (fun x => x.layer)) hmem

theorem styleFunctionEval_det (env : Env) (cfg : StyleFnData) (resolutions : List ℚ)
    (feature : Feature) (resolution : ℚ) (hids : IdsOK (allLayersOf cfg)) :
    DetM (StCon env (allLayersOf cfg))
      (styleFunctionEval env cfg resolutions feature resolution) := by
  simp only [styleFunctionEval]
  rcases hg : alookup cfg.layersBySourceLayer
      (match alookup feature.properties "layer" with
       | some (.str s) => s
       | some v => env.showV v
       | none => "undefined") with _ | lds
  · simp only [hg]
    exact detM_spure _
  · simp only [hg]
    apply detM_sbind (evalLayersFold_det env (allLayersOf cfg) hids lds
      (fun ld hld => mem_allLayersOf hg hld) _ feature resolution _)
    intro prims
    exact detM_spure _

/-- C9: calling the per-feature style function twice with identical
`(feature, resolution)` against an unchanged style document — unique layer
ids and caches consistent with the document, as after construction — yields
identical style primitive lists (hence identical colours, widths and texts)
on both calls, and the first call leaves the caches consistent again. -/
theorem evaluator_idempotent (env : Env) (cfg : StyleFnData) (resolutions : List ℚ)
    (feature : Feature) (resolution : ℚ) (st : EvalState)
    (hids : IdsOK (allLayersOf cfg)) (hcon : StCon env (allLayersOf cfg) st) :
    (styleFunctionEval env cfg resolutions feature resolution st).1 =
      (styleFunctionEval env cfg resolutions feature resolution
        ((styleFunctionEval env cfg resolutions feature resolution st).2)).1 ∧
    StCon env (allLayersOf cfg)
      ((styleFunctionEval env cfg resolutions feature resolution st).2) := by
  have hdet := styleFunctionEval_det env cfg resolutions feature resolution hids
  have hpres := hdet.2 st hcon
  exact ⟨hdet.1 st _ hcon hpres, hpres⟩

/-- Witness for C9: the circle fixture configuration evaluated twice from
the construction-fresh state. -/
theorem evaluator_idempotent_witness :
    (styleFunctionEval testEnv testCfg [1] pointFeatureT 1 emptyState).1 =
      (styleFunctionEval testEnv testCfg [1] pointFeatureT 1
        ((styleFunctionEval testEnv testCfg [1] pointFeatureT 1 emptyState).2)).1 ∧
    StCon testEnv (allLayersOf testCfg)
      ((styleFunctionEval testEnv testCfg [1] pointFeatureT 1 emptyState).2) :=
  evaluator_idempotent testEnv testCfg [1] pointFeatureT 1 emptyState
    (by
      have hall : allLayersOf testCfg = [circleLayerT] := by decide
      intro l1 h1 l2 h2 _
      rw [hall] at h1 h2
      simp only [List.mem_singleton] at h1 h2
      rw [h1, h2])
    (stcon_empty testEnv (allLayersOf testCfg))

end OlMapbox
